import Mathlib

/-!
Shallow embedding of the conversation-state and reply-dispatch engine of the
agent-go repository, together with theorems settling the spec claims.

Sources embedded here (authoritative versions, i.e. the ones the claims cite):
- pkg/memory/tweet_store.go (third revision: gorm + botID): SaveTweet,
  SaveAgentReply, UpdateTweetAfterReply, DetermineTweetCategory;
- the RecallTweetsNeedingReply method (memory package);
- the TweetResponder.handleSingleReply / ProcessTweetsNeedingReply walk
  (actions package, thread-based revision);
- pkg/interfaces/twitter/post_reply_in_thread.go: PostReplyThread.

Conventions of the embedding:
- the tweets table is a list of rows; SQL UPDATE ... WHERE is a map over the
  rows guarded by the predicate, COUNT is List.countP, ON CONFLICT upsert
  replaces the matched rows' assigned columns in place;
- timestamps are naturals, 0 standing for the SQL NULL / zero time and for
  the epoch used by COALESCE(last_bot_reply.bot_reply_time, epoch);
- external effects (the LLM generator, the HTTP post, the parent fetch) are
  oracle arguments; database write failures, where a claim is about them,
  are an explicit Bool oracle;
- Go `nil` versus empty slice for ReferencedTweets is Option (List RefTweet).
-/

namespace AgentGo

/-- One entry of a tweet's referenced_tweets list: a (type, id) pair, the
type being the platform string "replied_to", "quoted" or "retweeted". -/
structure RefTweet where
  type : String
  id : String
deriving DecidableEq

/-- TweetCategory from pkg/memory/tweet_store.go. -/
inductive TweetCategory where
  | mention
  | reply
  | quote
  | retweet
  | dm
  | conversation
deriving DecidableEq

/-- Fields of twitter.Tweet that the embedded operations read.  SaveTweet does
not persist the platform created_at (the column takes its DB default, the
insertion timestamp), so the inbound struct needs no created-at field here. -/
structure Tweet where
  id : String
  text : String
  conversationId : String
  authorId : String
  referencedTweets : Option (List RefTweet)
deriving DecidableEq

/-- First replied_to reference of a reference list, as found by the loops in
SaveTweet's reply handling (which break at the first hit). -/
def firstRepliedTo (refs : List RefTweet) : Option String :=
  (refs.find? (fun r => decide (r.type = "replied_to"))).map (fun r => r.id)

/-- Last replied_to reference: the conversation-ref building loop in SaveTweet
has no break, so the last replied_to entry wins for ParentID. -/
def lastRepliedTo (refs : List RefTweet) : Option String :=
  refs.foldl (fun acc r => if r.type = "replied_to" then some r.id else acc) none

/-- Loop body of DetermineTweetCategory's second loop: return on the first
reference whose type is quoted or retweeted, in list order. -/
def firstQuoteOrRetweet : List RefTweet → TweetCategory
  | [] => .mention
  | r :: rs =>
      if r.type = "quoted" then .quote
      else if r.type = "retweeted" then .retweet
      else firstQuoteOrRetweet rs

/-- Condition of DetermineTweetCategory's first branch: the tweet has a
non-nil reference list containing a replied_to entry. -/
def hasRepliedToRef (t : Tweet) : Bool :=
  match t.referencedTweets with
  | some refs => refs.any (fun r => decide (r.type = "replied_to"))
  | none => false

/-- DetermineTweetCategory from pkg/memory/tweet_store.go: conversation when a
replied_to reference exists and the conversation id is nonempty; otherwise the
first quoted/retweeted reference decides; otherwise mention. -/
def determineTweetCategory (t : Tweet) : TweetCategory :=
  if !(decide (t.conversationId = "")) && hasRepliedToRef t then
    .conversation
  else
    match t.referencedTweets with
    | some refs => firstQuoteOrRetweet refs
    | none => .mention

/-- Classification rule written after the (amended) spec words: replied_to
with nonempty conversation id takes priority; otherwise the first reference in
list order that is quoted or retweeted decides; otherwise mention. -/
def specCategoryOrdered (t : Tweet) : TweetCategory :=
  let refs := t.referencedTweets.getD []
  if !(decide (t.conversationId = "")) && refs.any (fun r => decide (r.type = "replied_to")) then
    TweetCategory.conversation
  else
    match refs.find? (fun r => decide (r.type = "quoted") || decide (r.type = "retweeted")) with
    | some r => if r.type = "quoted" then .quote else .retweet
    | none => .mention

lemma firstQuoteOrRetweet_eq_find (refs : List RefTweet) :
    firstQuoteOrRetweet refs =
      match refs.find? (fun r => decide (r.type = "quoted") || decide (r.type = "retweeted")) with
      | some r => if r.type = "quoted" then TweetCategory.quote else TweetCategory.retweet
      | none => TweetCategory.mention := by
  induction refs with
  | nil => rfl
  | cons r rs ih =>
      by_cases hq : r.type = "quoted"
      · simp [firstQuoteOrRetweet, List.find?, hq]
      · by_cases hr : r.type = "retweeted"
        · simp [firstQuoteOrRetweet, List.find?, hq, hr]
        · simp [firstQuoteOrRetweet, List.find?, hq, hr, ih]

/-- Counterexample for claim C8: a tweet whose reference list carries a
retweeted entry before a quoted entry (and no replied_to context) is
classified retweet by DetermineTweetCategory, not quote as the claim's
"regardless of the order of the reference list" asserts. -/
def c8Tweet : Tweet :=
  { id := "500", text := "both refs", conversationId := "", authorId := "U9",
    referencedTweets := some [⟨"retweeted", "700"⟩, ⟨"quoted", "701"⟩] }

/-- C8 counterexample: determineTweetCategory on a tweet with both a retweeted
and a quoted reference, retweeted first in the list, yields retweet — the
claim as stated demands quote for any order of the reference list. -/
theorem category_retweet_before_quoted_cex :
    determineTweetCategory c8Tweet = TweetCategory.retweet ∧
      TweetCategory.retweet ≠ TweetCategory.quote := by
  constructor
  · decide
  · decide

/-- C8 (amended): DetermineTweetCategory applies the stated priority order for
every input — replied_to with nonempty conversationId gives conversation;
otherwise the first reference in list order whose type is quoted or retweeted
decides (quote, resp. retweet); otherwise mention.  A message containing both
quoted and retweeted references is therefore classified by whichever of the
two appears first in the reference list.  The function is pure and idempotent:
its result is a function of the input tweet alone. -/
theorem determineTweetCategory_first_reference_priority (t : Tweet) :
    determineTweetCategory t = specCategoryOrdered t := by
  unfold determineTweetCategory specCategoryOrdered hasRepliedToRef
  cases h : t.referencedTweets with
  | none => simp
  | some refs => simp [firstQuoteOrRetweet_eq_find]

/-! PostReplyThread (pkg/interfaces/twitter/post_reply_in_thread.go). -/

/-- Parameters of PostReplyThread. -/
structure PostReplyThreadParams where
  text : String
  replyToId : String
  conversationId : String
deriving DecidableEq

/-- Outcome of the select over the GetTweetByID channels when PostReplyThread
needs to recover a conversation id: a response whose UnmarshalTweet yields a
usable tweet (some) or not (none), an error from the error channel, or the
context being done. -/
inductive FetchOutcome where
  | tweet (t : Option Tweet)
  | fail
  | canceled
deriving DecidableEq

/-- Externally visible requests PostReplyThread can issue, in order. -/
inductive PRAction where
  | fetchParent
  | postTweet
deriving DecidableEq

/-- Validation of the reply target id, the regex 1 to 19 decimal digits. -/
def validTweetId (s : String) : Bool :=
  decide (1 ≤ s.length) && decide (s.length ≤ 19) && s.toList.all (fun c => c.isDigit)

/-- Shared tail of PostReplyThread after the conversation-id recovery step:
validate the reply target id (empty check, then the digit regex), then post. -/
def postReplyValidateAndPost (acts : List PRAction) (params : PostReplyThreadParams)
    (post : Except String Tweet) : List PRAction × Except String Tweet :=
  if params.replyToId = "" then
    (acts, .error "reply_to_id is required for posting a reply")
  else if !(validTweetId params.replyToId) then
    (acts, .error "invalid reply_to_id format: must be 1-19 digits")
  else
    match post with
    | .error e => (acts ++ [.postTweet], .error ("failed to post reply tweet in thread: " ++ e))
    | .ok t => (acts ++ [.postTweet], .ok t)

/-- PostReplyThread: when no conversation id is given, first fetch the parent
tweet to recover one (taking its conversation id when the response parses,
keeping the empty one otherwise, aborting on a fetch error or cancellation);
then validate replyToId and post.  Returns the trace of issued requests and
the result. -/
def postReplyThread (params : PostReplyThreadParams) (fetch : FetchOutcome)
    (post : Except String Tweet) : List PRAction × Except String Tweet :=
  if params.conversationId = "" then
    match fetch with
    | .fail => ([.fetchParent], .error "failed to fetch original tweet")
    | .canceled => ([.fetchParent], .error "context canceled")
    | .tweet ot =>
        let params1 :=
          match ot with
          | some t => { params with conversationId := t.conversationId }
          | none => params
        postReplyValidateAndPost [.fetchParent] params1 post
  else
    postReplyValidateAndPost [] params post

lemma postReplyValidateAndPost_invalid (acts : List PRAction)
    (params : PostReplyThreadParams) (post : Except String Tweet)
    (h : validTweetId params.replyToId = false) :
    (∃ msg, (postReplyValidateAndPost acts params post).2 = .error msg) ∧
      (postReplyValidateAndPost acts params post).1 = acts := by
  unfold postReplyValidateAndPost
  by_cases he : params.replyToId = ""
  · simp [he]
  · simp [he, h]

lemma postReplyValidateAndPost_valid (acts : List PRAction)
    (params : PostReplyThreadParams) (post : Except String Tweet)
    (h : validTweetId params.replyToId = true) :
    (postReplyValidateAndPost acts params post).1 = acts ++ [PRAction.postTweet] := by
  have he : ¬ params.replyToId = "" := by
    intro he
    rw [he] at h
    exact absurd h (by decide)
  unfold postReplyValidateAndPost
  cases post with
  | error e => simp [he, h]
  | ok t => simp [he, h]

/-- C10: for every call of PostReplyThread whose replyToId is empty or not 1
to 19 decimal digits, the result is an error and no post request appears in
the trace; a well-formed replyToId passes the validation (whenever the
conversation-recovery step did not itself abort, the post request is issued);
and whenever conversationId is empty the parent fetch is the first issued
request, preceding any post. -/
theorem postReplyThread_validation (params : PostReplyThreadParams)
    (fetch : FetchOutcome) (post : Except String Tweet) :
    (validTweetId params.replyToId = false →
      (∃ msg, (postReplyThread params fetch post).2 = .error msg) ∧
        PRAction.postTweet ∉ (postReplyThread params fetch post).1) ∧
    (validTweetId params.replyToId = true → params.conversationId ≠ "" →
      (postReplyThread params fetch post).1 = [PRAction.postTweet]) ∧
    (validTweetId params.replyToId = true → params.conversationId = "" →
        (∃ t, fetch = FetchOutcome.tweet t) →
      (postReplyThread params fetch post).1 = [PRAction.fetchParent, PRAction.postTweet]) ∧
    (params.conversationId = "" →
      (postReplyThread params fetch post).1.head? = some PRAction.fetchParent) := by
  refine ⟨?_, ?_, ?_, ?_⟩
  · intro hbad
    unfold postReplyThread
    by_cases hc : params.conversationId = ""
    · rw [if_pos hc]
      cases fetch with
      | fail => exact ⟨⟨_, rfl⟩, by simp⟩
      | canceled => exact ⟨⟨_, rfl⟩, by simp⟩
      | tweet ot =>
          cases ot with
          | none =>
              have h := postReplyValidateAndPost_invalid [.fetchParent] params post hbad
              exact ⟨h.1, by rw [h.2]; decide⟩
          | some t =>
              have h := postReplyValidateAndPost_invalid [.fetchParent]
                { params with conversationId := t.conversationId } post hbad
              exact ⟨h.1, by rw [h.2]; decide⟩
    · rw [if_neg hc]
      have h := postReplyValidateAndPost_invalid [] params post hbad
      exact ⟨h.1, by rw [h.2]; decide⟩
  · intro hok hc
    unfold postReplyThread
    rw [if_neg hc]
    exact postReplyValidateAndPost_valid [] params post hok
  · intro hok hc hf
    unfold postReplyThread
    rw [if_pos hc]
    cases fetch with
    | fail => obtain ⟨t, ht⟩ := hf; exact absurd ht (by simp)
    | canceled => obtain ⟨t, ht⟩ := hf; exact absurd ht (by simp)
    | tweet ot =>
        cases ot with
        | none => exact postReplyValidateAndPost_valid [.fetchParent] params post hok
        | some t =>
            exact postReplyValidateAndPost_valid [.fetchParent]
              { params with conversationId := t.conversationId } post hok
  · intro hc
    unfold postReplyThread
    rw [if_pos hc]
    cases fetch with
    | fail => rfl
    | canceled => rfl
    | tweet ot =>
        cases ot with
        | none =>
            by_cases hv : validTweetId params.replyToId = true
            · rw [postReplyValidateAndPost_valid [.fetchParent] params post hv]; rfl
            · have hv2 : validTweetId params.replyToId = false := by
                revert hv; cases validTweetId params.replyToId <;> simp
              rw [(postReplyValidateAndPost_invalid [.fetchParent] params post hv2).2]; rfl
        | some t =>
            by_cases hv : validTweetId params.replyToId = true
            · rw [postReplyValidateAndPost_valid [.fetchParent]
                { params with conversationId := t.conversationId } post hv]; rfl
            · have hv2 : validTweetId params.replyToId = false := by
                revert hv; cases validTweetId params.replyToId <;> simp
              rw [(postReplyValidateAndPost_invalid [.fetchParent]
                { params with conversationId := t.conversationId } post hv2).2]; rfl

/-- Witness for C10 at concrete inputs: a malformed replyToId ("12a") is
rejected with no post issued, and a well-formed one ("12345") with an empty
conversationId leads to a parent fetch followed by the post. -/
theorem postReplyThread_validation_witness :
    (∃ msg, (postReplyThread ⟨"hi", "12a", "c9"⟩ FetchOutcome.fail (.ok ⟨"t", "", "c9", "B", none⟩)).2 = .error msg) ∧
      PRAction.postTweet ∉ (postReplyThread ⟨"hi", "12a", "c9"⟩ FetchOutcome.fail (.ok ⟨"t", "", "c9", "B", none⟩)).1 ∧
      (postReplyThread ⟨"hi", "12345", ""⟩ (FetchOutcome.tweet (some ⟨"77", "x", "c7", "B", none⟩))
          (.ok ⟨"t", "", "c7", "B", none⟩)).1 = [PRAction.fetchParent, PRAction.postTweet] := by
  refine ⟨?_, ?_, ?_⟩
  · exact (postReplyThread_validation ⟨"hi", "12a", "c9"⟩ FetchOutcome.fail
      (.ok ⟨"t", "", "c9", "B", none⟩)).1 (by decide) |>.1
  · exact (postReplyThread_validation ⟨"hi", "12a", "c9"⟩ FetchOutcome.fail
      (.ok ⟨"t", "", "c9", "B", none⟩)).1 (by decide) |>.2
  · exact (postReplyThread_validation ⟨"hi", "12345", ""⟩
      (FetchOutcome.tweet (some ⟨"77", "x", "c7", "B", none⟩))
      (.ok ⟨"t", "", "c7", "B", none⟩)).2.2.1 (by decide) rfl ⟨some ⟨"77", "x", "c7", "B", none⟩, rfl⟩

/-! The tweets table: rows, the store, and generic SQL-shaped helpers. -/

/-- ConversationRef from pkg/memory/tweet_store.go, persisted as jsonb. -/
structure ConvRef where
  isRoot : Bool
  parentId : String
  rootId : String
  conversationId : String
  replyDepth : Nat
  lastReplyAt : Nat
  lastReplyId : String
  lastReplyAuthor : String
  replyCount : Nat
deriving DecidableEq

/-- One row of the tweets table (the columns the embedded operations touch;
String "" models SQL NULL for text columns, Nat 0 for timestamp columns). -/
structure Row where
  id : String
  text : String
  conversationId : String
  authorId : String
  authorName : String
  authorUsername : String
  category : TweetCategory
  createdAt : Nat
  processedAt : Nat
  lastUpdated : Nat
  processCount : Nat
  needsReply : Bool
  repliedTo : Bool
  isParticipating : Bool
  unreadReplies : Nat
  lastReplyId : String
  lastReplyTime : Nat
  replyCount : Nat
  referencedTweets : Option (List RefTweet)
  convRef : Option ConvRef
deriving DecidableEq

/-- The tweets table as a list of rows. -/
abbrev Store := List Row

/-- SQL UPDATE ... SET f WHERE p. -/
def updateWhere (p : Row → Bool) (f : Row → Row) (s : Store) : Store :=
  s.map (fun r => if p r then f r else r)

/-- SELECT ... WHERE id = ? LIMIT 1 (first row carrying the id). -/
def lookup : Store → String → Option Row
  | [], _ => none
  | r :: rs, id => if r.id = id then some r else lookup rs id

/-- WHERE id = ?. -/
def idPred (id : String) (r : Row) : Bool := decide (r.id = id)

/-- WHERE conversation_id = ?. -/
def convPred (c : String) (r : Row) : Bool := decide (r.conversationId = c)

/-- WHERE conversation_id = ? AND id != ?. -/
def sibPred (c pid : String) (r : Row) : Bool :=
  decide (r.conversationId = c) && !(decide (r.id = pid))

/-- SET unread_replies = unread_replies + 1, needs_reply = TRUE,
last_updated = now. -/
def parentUpd (now : Nat) (r : Row) : Row :=
  { r with unreadReplies := r.unreadReplies + 1, needsReply := true, lastUpdated := now }

/-- SET is_participating = TRUE, last_updated = now. -/
def particUpd (now : Nat) (r : Row) : Row :=
  { r with isParticipating := true, lastUpdated := now }

/-- SET replied_to = TRUE, needs_reply = FALSE, last_reply_id = ?,
last_reply_time = now, last_updated = now, is_participating = TRUE. -/
def answeredUpd (replyId : String) (now : Nat) (r : Row) : Row :=
  { r with
    repliedTo := true
    needsReply := false
    lastReplyId := replyId
    lastReplyTime := now
    lastUpdated := now
    isParticipating := true }

/-- SELECT COUNT(*) WHERE conversation_id = c AND is_participating = TRUE. -/
def participatingCount (s : Store) (c : String) : Nat :=
  s.countP (fun r => decide (r.conversationId = c) && r.isParticipating)

/-! SaveTweet (third revision of pkg/memory/tweet_store.go). -/

/-- Conversation ref built by SaveTweet: absent when the conversation id is
empty; otherwise the last replied_to reference (the building loop has no
break) gives the parent, and a nil reference list marks the root. -/
def mkConvRef (t : Tweet) (now : Nat) : Option ConvRef :=
  if t.conversationId = "" then none
  else
    some
      { conversationId := t.conversationId
        lastReplyAt := now
        parentId :=
          match t.referencedTweets with
          | some refs => (lastRepliedTo refs).getD ""
          | none => ""
        isRoot := t.referencedTweets.isNone
        rootId := if t.referencedTweets.isNone then t.id else ""
        replyDepth := 0
        lastReplyId := ""
        lastReplyAuthor := ""
        replyCount := 0 }

/-- Reply handling of SaveTweet, executed before the upsert and outside any
transaction: when the tweet has a nonempty conversation id and a replied_to
reference, increment the parent's unread_replies and flag it, then mark every
other row of the conversation as participating. -/
def saveTweetBody (s : Store) (t : Tweet) (now : Nat) : Store :=
  if t.conversationId = "" then s
  else
    match t.referencedTweets with
    | none => s
    | some refs =>
        match firstRepliedTo refs with
        | none => s
        | some pid =>
            updateWhere (sibPred t.conversationId pid) (particUpd now)
              (updateWhere (idPred pid) (parentUpd now) s)

/-- Row produced when the upsert inserts: the tweetData columns plus the
schema defaults for the columns SaveTweet does not set (created_at takes the
insertion timestamp via its DB default, replied_to FALSE, counters 0, reply
pointers NULL). -/
def freshRow (t : Tweet) (cat : TweetCategory) (an au : String) (now : Nat) (count : Nat) : Row :=
  { id := t.id
    text := t.text
    conversationId := t.conversationId
    authorId := t.authorId
    authorName := an
    authorUsername := au
    category := cat
    createdAt := now
    processedAt := now
    lastUpdated := now
    processCount := 0
    needsReply := true
    repliedTo := false
    isParticipating := decide (0 < count)
    unreadReplies := 0
    lastReplyId := ""
    lastReplyTime := 0
    replyCount := 0
    referencedTweets := t.referencedTweets
    convRef := mkConvRef t now }

/-- ON CONFLICT assignment of SaveTweet's tweetData columns to an existing
row: every column of the map is overwritten (needs_reply becomes TRUE again,
is_participating is recomputed from the pre-existing participating count);
columns not in the map (created_at, replied_to, unread_replies, reply
pointers, process_count) keep their stored values. -/
def applyTweetData (t : Tweet) (cat : TweetCategory) (an au : String) (now : Nat)
    (count : Nat) (old : Row) : Row :=
  { old with
    id := t.id
    text := t.text
    conversationId := t.conversationId
    authorId := t.authorId
    authorName := an
    authorUsername := au
    category := cat
    processedAt := now
    lastUpdated := now
    needsReply := true
    isParticipating := decide (0 < count)
    referencedTweets := t.referencedTweets
    convRef := mkConvRef t now }

/-- The upsert statement of SaveTweet (INSERT ... ON CONFLICT (id) DO UPDATE). -/
def upsertTweetRow (s : Store) (t : Tweet) (cat : TweetCategory) (an au : String)
    (now : Nat) (count : Nat) : Store :=
  if (lookup s t.id).isSome then
    updateWhere (idPred t.id) (applyTweetData t cat an au now count) s
  else
    s ++ [freshRow t cat an au now count]

/-- Participating count taken at the start of SaveTweet: computed only when
the tweet has a conversation id, 0 otherwise (the Go variable keeps its zero
value in that case). -/
def saveTweetCount (s : Store) (t : Tweet) : Nat :=
  if t.conversationId = "" then 0 else participatingCount s t.conversationId

/-- SaveTweet with the success of its final upsert statement as an oracle.
The participating count is taken first, then the reply handling runs as plain
statements, then the upsert; when the upsert fails SaveTweet returns the error
while the earlier statements remain applied (there is no transaction). -/
def saveTweetRun (upsertOk : Bool) (s : Store) (t : Tweet) (cat : TweetCategory)
    (an au : String) (now : Nat) : Store × Option String :=
  let count := saveTweetCount s t
  let s1 := saveTweetBody s t now
  if upsertOk then (upsertTweetRow s1 t cat an au now count, none)
  else (s1, some "failed to save tweet")

/-- SaveTweet on the path where every statement succeeds. -/
def saveTweet (s : Store) (t : Tweet) (cat : TweetCategory) (an au : String)
    (now : Nat) : Store :=
  (saveTweetRun true s t cat an au now).1

/-! SaveAgentReply and UpdateTweetAfterReply. -/

/-- Row inserted by SaveAgentReply for the agent's own reply. -/
def agentReplyRow (botId origId replyId convId replyText : String) (now : Nat) : Row :=
  { id := replyId
    text := replyText
    conversationId := convId
    authorId := botId
    authorName := "CatLordLaffy"
    authorUsername := "CatLordLaffy"
    category := .reply
    createdAt := now
    processedAt := now
    lastUpdated := now
    processCount := 0
    needsReply := false
    repliedTo := false
    isParticipating := true
    unreadReplies := 0
    lastReplyId := ""
    lastReplyTime := 0
    replyCount := 0
    referencedTweets := none
    convRef := some
      { conversationId := convId
        parentId := origId
        isRoot := false
        lastReplyAt := now
        rootId := ""
        replyDepth := 0
        lastReplyId := ""
        lastReplyAuthor := ""
        replyCount := 0 } }

/-- SaveAgentReply: one transaction inserting the agent's reply row, marking
the original tweet answered, and marking the whole conversation participated.
The insert violates the primary key when the reply id already exists, rolling
the transaction back (modelled as none). -/
def saveAgentReply (s : Store) (botId origId replyId convId replyText : String)
    (now : Nat) : Option Store :=
  if (lookup s replyId).isSome then none
  else
    let s1 := s ++ [agentReplyRow botId origId replyId convId replyText now]
    let s2 := updateWhere (idPred origId) (answeredUpd replyId now) s1
    some (updateWhere (convPred convId) (particUpd now) s2)

/-- UpdateTweetAfterReply: flip the original tweet's status after a posted
reply (idempotent status update, no transaction needed). -/
def updateTweetAfterReply (s : Store) (tweetId replyId : String) (now : Nat) : Store :=
  updateWhere (idPred tweetId) (answeredUpd replyId now) s

/-- Store mutations reachable through the public write API. -/
inductive StoreOp where
  | ingest (t : Tweet) (cat : TweetCategory) (an au : String) (now : Nat)
  | agentReply (origId replyId convId replyText : String) (now : Nat)
  | afterReply (tweetId replyId : String) (now : Nat)

/-- Application of one store operation (a failed SaveAgentReply rolls back and
the caller merely logs, leaving the store unchanged). -/
def applyOp (botId : String) (s : Store) : StoreOp → Store
  | .ingest t cat an au now => saveTweet s t cat an au now
  | .agentReply origId replyId convId replyText now =>
      (saveAgentReply s botId origId replyId convId replyText now).getD s
  | .afterReply tweetId replyId now => updateTweetAfterReply s tweetId replyId now

/-- Application of a sequence of store operations. -/
def applyOps (botId : String) (s : Store) (ops : List StoreOp) : Store :=
  ops.foldl (applyOp botId) s

/-! Generic lemmas about the store helpers. -/

lemma mem_updateWhere {r : Row} {p : Row → Bool} {f : Row → Row} {s : Store} :
    r ∈ updateWhere p f s ↔ ∃ x, x ∈ s ∧ r = if p x then f x else x := by
  simp only [updateWhere, List.mem_map]
  constructor
  · rintro ⟨x, hx, hfx⟩
    exact ⟨x, hx, hfx.symm⟩
  · rintro ⟨x, hx, hfx⟩
    exact ⟨x, hx, hfx.symm⟩

lemma lookup_eq_none_iff {s : Store} {id : String} :
    lookup s id = none ↔ ∀ r ∈ s, ¬(r.id = id) := by
  induction s with
  | nil => simp [lookup]
  | cons x xs ih =>
      by_cases hx : x.id = id
      · simp [lookup, hx]
      · simp [lookup, hx, ih]

lemma lookup_isSome_iff {s : Store} {id : String} :
    (lookup s id).isSome ↔ ∃ r ∈ s, r.id = id := by
  induction s with
  | nil => simp [lookup]
  | cons x xs ih =>
      by_cases hx : x.id = id
      · simp [lookup, hx]
      · simp [lookup, hx, ih]

lemma saveTweet_eq (s : Store) (t : Tweet) (cat : TweetCategory) (an au : String) (now : Nat) :
    saveTweet s t cat an au now =
      upsertTweetRow (saveTweetBody s t now) t cat an au now (saveTweetCount s t) := rfl

/-! Claim C4: conversation-id normalization. -/

/-- Mention ingested with an absent conversation id, as in the spec scenario. -/
def c4Tweet : Tweet :=
  { id := "m1", text := "hey bot", conversationId := "", authorId := "U1",
    referencedTweets := none }

/-- C4 counterexample: ingesting a mention whose conversationId is empty
stores the row with conversation_id still empty — it is not normalized to the
message's own id "m1" as the claim asserts (the store path writes the tweet's
conversation id verbatim; the tweet-id fallback exists only on the fetch-layer
MentionResponse, which SaveTweet never sees). -/
theorem empty_conversation_id_stored_verbatim_cex :
    ((lookup (saveTweet [] c4Tweet .mention "Alice" "alice" 1) "m1").map
        (fun r => r.conversationId)) = some "" ∧
      ("" : String) ≠ "m1" := by
  constructor
  · decide
  · decide

/-- C4 (amended): for every ingested message the stored row's conversation_id
equals the message's conversationId verbatim; in particular a message ingested
with an empty conversationId rests with an empty conversation_id, not with its
own id. -/
theorem saveTweet_stores_conversation_id_verbatim (s : Store) (t : Tweet)
    (cat : TweetCategory) (an au : String) (now : Nat) :
    ∀ r ∈ saveTweet s t cat an au now, r.id = t.id → r.conversationId = t.conversationId := by
  intro r hr hid
  rw [saveTweet_eq] at hr
  unfold upsertTweetRow at hr
  by_cases hs : (lookup (saveTweetBody s t now) t.id).isSome
  · rw [if_pos hs] at hr
    rcases mem_updateWhere.mp hr with ⟨x, hx, hrx⟩
    by_cases hpx : x.id = t.id
    · rw [if_pos (show idPred t.id x = true by simp [idPred, hpx])] at hrx
      rw [hrx]
      rfl
    · rw [if_neg (show ¬ idPred t.id x = true by simp [idPred, hpx])] at hrx
      exact absurd (hrx ▸ hid) hpx
  · rw [if_neg hs] at hr
    rcases List.mem_append.mp hr with hmem | hmem
    · have hnone : lookup (saveTweetBody s t now) t.id = none := by
        cases h : lookup (saveTweetBody s t now) t.id with
        | none => rfl
        | some v => exact absurd (by simp [h]) hs
      exact absurd hid (lookup_eq_none_iff.mp hnone r hmem)
    · rw [List.mem_singleton.mp hmem]
      rfl

/-- Witness for C4 (amended): a concrete ingest with a nonempty conversation
id stores that id verbatim on the message row. -/
theorem saveTweet_stores_conversation_id_verbatim_witness :
    (freshRow ⟨"m2", "hi", "c2", "U1", none⟩ .mention "A" "a" 1 0).conversationId = "c2" :=
  saveTweet_stores_conversation_id_verbatim [] ⟨"m2", "hi", "c2", "U1", none⟩ .mention "A" "a" 1
    (freshRow ⟨"m2", "hi", "c2", "U1", none⟩ .mention "A" "a" 1 0) (by decide) (by decide)

lemma lookup_updateWhere (p : Row → Bool) (f : Row → Row)
    (hf : ∀ r, p r = true → (f r).id = r.id) (s : Store) (id : String) :
    lookup (updateWhere p f s) id = (lookup s id).map (fun r => if p r then f r else r) := by
  induction s with
  | nil => rfl
  | cons x xs ih =>
      show lookup ((if p x then f x else x) :: updateWhere p f xs) id = _
      have hid : (if p x then f x else x).id = x.id := by
        by_cases hp : p x
        · rw [if_pos hp, hf x hp]
        · rw [if_neg hp]
      by_cases hx : x.id = id
      · rw [lookup, if_pos (hid.trans hx), lookup, if_pos hx]
        rfl
      · rw [lookup, if_neg (fun h => hx (hid.symm.trans h)), lookup, if_neg hx]
        exact ih

lemma lookup_append_left {l1 l2 : Store} {id : String} {r : Row}
    (h : lookup l1 id = some r) : lookup (l1 ++ l2) id = some r := by
  induction l1 with
  | nil => exact absurd h (by simp [lookup])
  | cons x xs ih =>
      by_cases hx : x.id = id
      · rw [lookup, if_pos hx] at h
        rw [List.cons_append, lookup, if_pos hx]
        exact h
      · rw [lookup, if_neg hx] at h
        rw [List.cons_append, lookup, if_neg hx]
        exact ih h

lemma lookup_append_right {l1 l2 : Store} {id : String}
    (h : lookup l1 id = none) : lookup (l1 ++ l2) id = lookup l2 id := by
  induction l1 with
  | nil => rfl
  | cons x xs ih =>
      by_cases hx : x.id = id
      · rw [lookup, if_pos hx] at h
        exact absurd h (by simp)
      · rw [lookup, if_neg hx] at h
        rw [List.cons_append, lookup, if_neg hx]
        exact ih h

lemma lookup_some_id {s : Store} {id : String} {r : Row}
    (h : lookup s id = some r) : r.id = id := by
  induction s with
  | nil => exact absurd h (by simp [lookup])
  | cons x xs ih =>
      by_cases hx : x.id = id
      · rw [lookup, if_pos hx] at h
        rw [← Option.some_inj.mp h]
        exact hx
      · rw [lookup, if_neg hx] at h
        exact ih h

/-! Claim C2: atomicity of SaveTweet. -/

/-- Parent targeted by SaveTweet's reply handling: the first replied_to
reference, when the tweet has one. -/
def tweetParentId (t : Tweet) : Option String :=
  match t.referencedTweets with
  | some refs => firstRepliedTo refs
  | none => none

/-- Unread-replies counter of the stored row of a given id. -/
def unreadOf (s : Store) (id : String) : Option Nat :=
  (lookup s id).map (fun r => r.unreadReplies)

/-- Store holding only the parent mention, before the reply is ingested. -/
def c2Base : Store :=
  saveTweet [] ⟨"1", "parent", "c", "U1", none⟩ .mention "Alice" "alice" 1

/-- The inbound reply to tweet 1 whose ingestion is interrupted. -/
def c2Reply : Tweet :=
  { id := "2", text := "child", conversationId := "c", authorId := "U2",
    referencedTweets := some [⟨"replied_to", "1"⟩] }

/-- C2 counterexample: one execution of SaveTweet in which the final upsert
fails: the function returns an error, no row for the ingested message exists,
yet the parent's unread_replies increment (issued beforehand, outside any
transaction) remains applied — the message row write failed while the
parent-counter update took effect, contradicting the claimed atomicity. -/
theorem saveTweet_upsert_failure_partial_cex :
    (saveTweetRun false c2Base c2Reply .conversation "Bob" "bob" 2).2.isSome = true ∧
      lookup (saveTweetRun false c2Base c2Reply .conversation "Bob" "bob" 2).1 "2" = none ∧
      unreadOf c2Base "1" = some 0 ∧
      unreadOf (saveTweetRun false c2Base c2Reply .conversation "Bob" "bob" 2).1 "1" = some 1 := by
  refine ⟨by decide, by decide, by decide, by decide⟩

/-- C2 (amended): SaveTweet is not atomic.  Its parent-counter and
participation updates are separate statements issued before the row upsert
and outside any transaction: for every reply whose parent is stored, when the
upsert fails SaveTweet returns an error and no message row is written, but
the parent's unread_replies increment remains applied; when every statement
succeeds, the message row and the parent increment both take effect. -/
theorem saveTweet_upsert_failure_keeps_prior_updates (s : Store) (t : Tweet)
    (cat : TweetCategory) (an au : String) (now : Nat) (pid : String)
    (hconv : t.conversationId ≠ "") (hpid : tweetParentId t = some pid)
    (hnew : lookup s t.id = none) (hparent : (lookup s pid).isSome) :
    ((saveTweetRun false s t cat an au now).2.isSome ∧
      lookup (saveTweetRun false s t cat an au now).1 t.id = none ∧
      unreadOf (saveTweetRun false s t cat an au now).1 pid = (unreadOf s pid).map (· + 1)) ∧
    ((saveTweetRun true s t cat an au now).2 = none ∧
      (lookup (saveTweetRun true s t cat an au now).1 t.id).isSome ∧
      unreadOf (saveTweetRun true s t cat an au now).1 pid = (unreadOf s pid).map (· + 1)) := by
  obtain ⟨refs, hrefs, hfirst⟩ : ∃ refs, t.referencedTweets = some refs ∧
      firstRepliedTo refs = some pid := by
    unfold tweetParentId at hpid
    cases h : t.referencedTweets with
    | none => rw [h] at hpid; exact absurd hpid (by simp)
    | some refs => rw [h] at hpid; exact ⟨refs, rfl, hpid⟩
  obtain ⟨r0, hr0⟩ : ∃ r0, lookup s pid = some r0 := Option.isSome_iff_exists.mp hparent
  have hr0id : r0.id = pid := lookup_some_id hr0
  have hbody : saveTweetBody s t now =
      updateWhere (sibPred t.conversationId pid) (particUpd now)
        (updateWhere (idPred pid) (parentUpd now) s) := by
    unfold saveTweetBody
    rw [if_neg hconv, hrefs]
    simp only [hfirst]
  have hidP : ∀ r : Row, idPred pid r = true → (parentUpd now r).id = r.id := fun r _ => rfl
  have hidS : ∀ r : Row, sibPred t.conversationId pid r = true → (particUpd now r).id = r.id :=
    fun r _ => rfl
  have hlookP : lookup (updateWhere (idPred pid) (parentUpd now) s) pid =
      some (parentUpd now r0) := by
    rw [lookup_updateWhere _ _ hidP, hr0]
    simp [idPred, hr0id]
  have hlookS : lookup (saveTweetBody s t now) pid =
      some (if sibPred t.conversationId pid (parentUpd now r0) then
              particUpd now (parentUpd now r0)
            else parentUpd now r0) := by
    rw [hbody, lookup_updateWhere _ _ hidS, hlookP]
    rfl
  have hunreadBody : unreadOf (saveTweetBody s t now) pid = some (r0.unreadReplies + 1) := by
    rw [unreadOf, hlookS]
    by_cases hcnd : sibPred t.conversationId pid (parentUpd now r0) = true
    · rw [if_pos hcnd]
      rfl
    · rw [if_neg hcnd]
      rfl
  have hnewBody : lookup (saveTweetBody s t now) t.id = none := by
    rw [hbody, lookup_updateWhere _ _ hidS, lookup_updateWhere _ _ hidP, hnew]
    rfl
  have hunreadS : unreadOf s pid = some r0.unreadReplies := by
    rw [unreadOf, hr0]
    rfl
  refine ⟨⟨by simp [saveTweetRun], ?_, ?_⟩, ?_, ?_, ?_⟩
  · show lookup (saveTweetBody s t now) t.id = none
    exact hnewBody
  · show unreadOf (saveTweetBody s t now) pid = (unreadOf s pid).map (· + 1)
    rw [hunreadBody, hunreadS]
    rfl
  · rfl
  · show (lookup (upsertTweetRow (saveTweetBody s t now) t cat an au now _) t.id).isSome
    unfold upsertTweetRow
    rw [hnewBody]
    simp only [Option.isSome_none, Bool.false_eq_true, if_false]
    rw [lookup_append_right hnewBody]
    simp [lookup, freshRow]
  · show unreadOf (upsertTweetRow (saveTweetBody s t now) t cat an au now _) pid =
      (unreadOf s pid).map (· + 1)
    unfold upsertTweetRow
    rw [hnewBody]
    simp only [Option.isSome_none, Bool.false_eq_true, if_false]
    rw [unreadOf, lookup_append_left hlookS, ← hlookS, ← unreadOf, hunreadBody, hunreadS]
    rfl

/-- Witness for C2 (amended) at the concrete two-row scenario: the hypotheses
hold and both the failing and the succeeding execution behave as stated. -/
theorem saveTweet_upsert_failure_keeps_prior_updates_witness :
    ((saveTweetRun false c2Base c2Reply .conversation "Bob" "bob" 2).2.isSome ∧
      lookup (saveTweetRun false c2Base c2Reply .conversation "Bob" "bob" 2).1 "2" = none ∧
      unreadOf (saveTweetRun false c2Base c2Reply .conversation "Bob" "bob" 2).1 "1" =
        (unreadOf c2Base "1").map (· + 1)) ∧
    ((saveTweetRun true c2Base c2Reply .conversation "Bob" "bob" 2).2 = none ∧
      (lookup (saveTweetRun true c2Base c2Reply .conversation "Bob" "bob" 2).1 "2").isSome ∧
      unreadOf (saveTweetRun true c2Base c2Reply .conversation "Bob" "bob" 2).1 "1" =
        (unreadOf c2Base "1").map (· + 1)) :=
  saveTweet_upsert_failure_keeps_prior_updates c2Base c2Reply .conversation "Bob" "bob" 2 "1"
    (by decide) (by decide) (by decide) (by decide)

/-! Claim C6: monotonic participation. -/

/-- Tweet of the participation counterexample: ingested with an absent
conversation id (stored verbatim as ""). -/
def c6Tweet : Tweet :=
  { id := "a", text := "solo", conversationId := "", authorId := "U1",
    referencedTweets := none }

/-- Store after ingesting the tweet. -/
def c6S1 : Store := saveTweet [] c6Tweet .mention "Ann" "ann" 1

/-- Store after the agent replied to it (SaveAgentReply with the empty
conversation id): the original row is participating. -/
def c6S2 : Store := (saveAgentReply c6S1 "B" "a" "r1" "" "reply text" 2).getD []

/-- Store after the same message is ingested again. -/
def c6S3 : Store := saveTweet c6S2 c6Tweet .mention "Ann" "ann" 3

/-- C6 counterexample: in the conversation whose id is the empty string,
participation is not monotonic — after SaveAgentReply the original row has
is_participating TRUE, but re-ingesting the same message resets it to FALSE,
because SaveTweet computes the participating count only for a nonempty
conversation id and otherwise overwrites is_participating with FALSE on
conflict. -/
theorem participation_reset_empty_conversation_cex :
    ((lookup c6S2 "a").map (fun r => r.isParticipating)) = some true ∧
      ((lookup c6S3 "a").map (fun r => r.isParticipating)) = some false := by
  exact ⟨by decide, by decide⟩

/-- C6 (amended): participation is monotonic for every nonempty
conversationId.  Under the primary-key invariant (no two rows share an id),
once a row of a conversation c ≠ "" has is_participating TRUE, ingesting any
message of that same conversation — including a re-upsert of that very row,
whose is_participating is recomputed from the pre-existing participating
count — leaves that row's participation TRUE. -/
theorem participation_monotonic_nonempty_conversation (s : Store) (t : Tweet)
    (cat : TweetCategory) (an au : String) (now : Nat) (c : String) (x : Row)
    (hnodup : (s.map (fun r => r.id)).Nodup)
    (hc : c ≠ "") (hx : x ∈ s) (hxc : x.conversationId = c)
    (hxp : x.isParticipating = true) (htc : t.conversationId = c) :
    ∀ r ∈ saveTweet s t cat an au now, r.id = x.id → r.isParticipating = true := by
  intro r hr hidr
  have huniq : ∀ y ∈ s, y.id = x.id → y = x := fun y hy hyx =>
    List.inj_on_of_nodup_map hnodup hy hx hyx
  have hcount : 0 < saveTweetCount s t := by
    rw [saveTweetCount, if_neg (htc ▸ hc), participatingCount, List.countP_pos_iff]
    exact ⟨x, hx, by simp [htc, hxc, hxp]⟩
  have hbodyMem : ∀ r2 ∈ saveTweetBody s t now,
      ∃ y ∈ s, r2.id = y.id ∧ (y.isParticipating = true → r2.isParticipating = true) := by
    intro r2 hr2
    unfold saveTweetBody at hr2
    by_cases hcv : t.conversationId = ""
    · rw [if_pos hcv] at hr2
      exact ⟨r2, hr2, rfl, fun h => h⟩
    · rw [if_neg hcv] at hr2
      cases hrefs : t.referencedTweets with
      | none =>
          rw [hrefs] at hr2
          exact ⟨r2, hr2, rfl, fun h => h⟩
      | some refs =>
          rw [hrefs] at hr2
          cases hfirst : firstRepliedTo refs with
          | none =>
              simp only [hfirst] at hr2
              exact ⟨r2, hr2, rfl, fun h => h⟩
          | some pid =>
              simp only [hfirst] at hr2
              rcases mem_updateWhere.mp hr2 with ⟨y1, hy1, hre⟩
              rcases mem_updateWhere.mp hy1 with ⟨y0, hy0, hy1e⟩
              refine ⟨y0, hy0, ?_, ?_⟩
              · have h21 : r2.id = y1.id := by
                  rw [hre]
                  by_cases h1 : sibPred t.conversationId pid y1
                  · rw [if_pos h1]; rfl
                  · rw [if_neg h1]
                have h10 : y1.id = y0.id := by
                  rw [hy1e]
                  by_cases h0 : idPred pid y0
                  · rw [if_pos h0]; rfl
                  · rw [if_neg h0]
                exact h21.trans h10
              · intro hp0
                have hp1 : y1.isParticipating = true := by
                  rw [hy1e]
                  by_cases h0 : idPred pid y0
                  · rw [if_pos h0]; exact hp0
                  · rw [if_neg h0]; exact hp0
                rw [hre]
                by_cases h1 : sibPred t.conversationId pid y1
                · rw [if_pos h1]; rfl
                · rw [if_neg h1]; exact hp1
  rw [saveTweet_eq] at hr
  unfold upsertTweetRow at hr
  by_cases hs : (lookup (saveTweetBody s t now) t.id).isSome
  · rw [if_pos hs] at hr
    rcases mem_updateWhere.mp hr with ⟨r2, hr2, hre⟩
    by_cases hp2 : idPred t.id r2
    · rw [if_pos hp2] at hre
      rw [hre]
      show decide (0 < _) = true
      simpa using hcount
    · rw [if_neg hp2] at hre
      rcases hbodyMem r2 hr2 with ⟨y, hy, hid2, hmono⟩
      have : y = x := huniq y hy (by rw [← hid2, ← hre]; exact hidr)
      rw [hre]
      exact hmono (this ▸ hxp)
  · rw [if_neg hs] at hr
    rcases List.mem_append.mp hr with hmem | hmem
    · rcases hbodyMem r hmem with ⟨y, hy, hid2, hmono⟩
      have : y = x := huniq y hy (hid2 ▸ hidr)
      exact hmono (this ▸ hxp)
    · rw [List.mem_singleton.mp hmem]
      show decide (0 < _) = true
      simpa using hcount

/-- Witness for C6 (amended) at a concrete one-row store: re-upserting the
participating row of conversation "c" keeps its participation TRUE. -/
theorem participation_monotonic_nonempty_conversation_witness :
    (applyTweetData ⟨"x1", "t2", "c", "U1", none⟩ .mention "A" "a" 5 1
        (freshRow ⟨"x1", "t1", "c", "U1", none⟩ .mention "A" "a" 1 1)).isParticipating = true :=
  participation_monotonic_nonempty_conversation
    [freshRow ⟨"x1", "t1", "c", "U1", none⟩ .mention "A" "a" 1 1]
    ⟨"x1", "t2", "c", "U1", none⟩ .mention "A" "a" 5 "c"
    (freshRow ⟨"x1", "t1", "c", "U1", none⟩ .mention "A" "a" 1 1)
    (by decide) (by decide) (by decide) (by decide) (by decide) (by decide)
    (applyTweetData ⟨"x1", "t2", "c", "U1", none⟩ .mention "A" "a" 5 1
      (freshRow ⟨"x1", "t1", "c", "U1", none⟩ .mention "A" "a" 1 1))
    (by decide) (by decide)

/-! Claim C5: idempotent ingestion. -/

/-- Condition under which SaveTweet's reply-handling block runs: nonempty
conversation id and a replied_to reference. -/
def replyHandlingApplies (t : Tweet) : Bool :=
  !(decide (t.conversationId = "")) &&
    (match t.referencedTweets with
     | some refs => (firstRepliedTo refs).isSome
     | none => false)

/-- Audit-timestamp erasure on the conversation-ref snapshot. -/
def eraseAuditRef (cr : ConvRef) : ConvRef := { cr with lastReplyAt := 0 }

/-- Audit-timestamp erasure on a row: processed_at, last_updated, and the
conversation_ref's last_reply_at stamp. -/
def eraseAuditRow (r : Row) : Row :=
  { r with processedAt := 0, lastUpdated := 0, convRef := r.convRef.map eraseAuditRef }

/-- Audit-timestamp erasure on a whole store. -/
def eraseAuditStore (s : Store) : Store := s.map eraseAuditRow

/-- Parent tweet of the idempotence counterexample. -/
def c5Parent : Tweet :=
  { id := "1", text := "parent", conversationId := "c", authorId := "U1",
    referencedTweets := none }

/-- Inbound reply whose repeated ingestion breaks idempotence. -/
def c5Reply : Tweet :=
  { id := "2", text := "child", conversationId := "c", authorId := "U2",
    referencedTweets := some [⟨"replied_to", "1"⟩] }

/-- Store after ingesting the parent and the reply once. -/
def c5Once : Store :=
  saveTweet (saveTweet [] c5Parent .mention "A" "a" 1) c5Reply .conversation "B2" "b2" 2

/-- Store after ingesting the reply a second time. -/
def c5Twice : Store := saveTweet c5Once c5Reply .conversation "B2" "b2" 3

/-- C5 counterexample: upserting the same reply twice does not leave the
parent's unread_replies as after one upsert — SaveTweet increments the parent
counter on every call, so it is 1 after one ingestion and 2 after two. -/
theorem saveTweet_double_upsert_parent_counter_cex :
    unreadOf c5Once "1" = some 1 ∧ unreadOf c5Twice "1" = some 2 := by
  exact ⟨by decide, by decide⟩

lemma saveTweetBody_skip {t : Tweet} (h : replyHandlingApplies t = false)
    (s : Store) (now : Nat) : saveTweetBody s t now = s := by
  unfold saveTweetBody
  by_cases hcv : t.conversationId = ""
  · rw [if_pos hcv]
  · rw [if_neg hcv]
    cases hrefs : t.referencedTweets with
    | none => rfl
    | some refs =>
        cases hfirst : firstRepliedTo refs with
        | none => simp only [hfirst]
        | some pid =>
            exfalso
            unfold replyHandlingApplies at h
            rw [hrefs] at h
            simp [hcv, hfirst] at h

lemma saveTweetCount_upsert_zero {s : Store} {t : Tweet} {cat : TweetCategory}
    {an au : String} {n1 : Nat} (hz : saveTweetCount s t = 0) :
    saveTweetCount (upsertTweetRow s t cat an au n1 (saveTweetCount s t)) t = 0 := by
  by_cases hcv : t.conversationId = ""
  · rw [saveTweetCount, if_pos hcv]
  · rw [saveTweetCount, if_neg hcv] at hz ⊢
    rw [participatingCount, List.countP_eq_zero] at hz ⊢
    intro r2 hr2
    unfold upsertTweetRow at hr2
    by_cases hs : (lookup s t.id).isSome
    · rw [if_pos hs] at hr2
      rcases mem_updateWhere.mp hr2 with ⟨y, hy, hre⟩
      by_cases hpy : idPred t.id y = true
      · rw [if_pos hpy] at hre
        rw [hre]
        simp [applyTweetData, saveTweetCount, hcv, participatingCount,
          List.countP_eq_zero.mpr hz]
      · rw [if_neg hpy] at hre
        exact hre ▸ hz y hy
    · rw [if_neg hs] at hr2
      rcases List.mem_append.mp hr2 with hmem | hmem
      · exact hz r2 hmem
      · rw [List.mem_singleton.mp hmem]
        simp [freshRow, saveTweetCount, hcv, participatingCount,
          List.countP_eq_zero.mpr hz]

lemma saveTweetCount_upsert_pos {s : Store} {t : Tweet} {cat : TweetCategory}
    {an au : String} {n1 : Nat} (hp : 0 < saveTweetCount s t) :
    0 < saveTweetCount (upsertTweetRow s t cat an au n1 (saveTweetCount s t)) t := by
  by_cases hcv : t.conversationId = ""
  · rw [saveTweetCount, if_pos hcv] at hp
    exact absurd hp (by simp)
  · rw [saveTweetCount, if_neg hcv] at hp ⊢
    rw [participatingCount, List.countP_pos_iff] at hp ⊢
    obtain ⟨y, hy, hpy⟩ := hp
    unfold upsertTweetRow
    by_cases hs : (lookup s t.id).isSome
    · rw [if_pos hs]
      refine ⟨if idPred t.id y then applyTweetData t cat an au n1 (saveTweetCount s t) y else y,
        mem_updateWhere.mpr ⟨y, hy, rfl⟩, ?_⟩
      by_cases hpy2 : idPred t.id y = true
      · rw [if_pos hpy2]
        have hcnt : 0 < saveTweetCount s t := by
          rw [saveTweetCount, if_neg hcv, participatingCount, List.countP_pos_iff]
          exact ⟨y, hy, hpy⟩
        simp [applyTweetData, hcnt]
      · rw [if_neg hpy2]
        exact hpy
    · rw [if_neg hs]
      exact ⟨y, List.mem_append.mpr (Or.inl hy), hpy⟩

lemma saveTweetCount_upsert_pos_iff (s : Store) (t : Tweet) (cat : TweetCategory)
    (an au : String) (n1 : Nat) :
    (0 < saveTweetCount (upsertTweetRow s t cat an au n1 (saveTweetCount s t)) t) ↔
      (0 < saveTweetCount s t) := by
  constructor
  · intro h1
    by_contra h0
    have hz : saveTweetCount s t = 0 := Nat.eq_zero_of_not_pos h0
    rw [saveTweetCount_upsert_zero hz] at h1
    exact absurd h1 (by simp)
  · exact saveTweetCount_upsert_pos

lemma mkConvRef_erase (t : Tweet) (n1 n2 : Nat) :
    (mkConvRef t n1).map eraseAuditRef = (mkConvRef t n2).map eraseAuditRef := by
  unfold mkConvRef
  by_cases hc : t.conversationId = ""
  · rw [if_pos hc, if_pos hc]
  · rw [if_neg hc, if_neg hc]
    rfl

lemma eraseAuditRow_applyTweetData (t : Tweet) (cat : TweetCategory) (an au : String)
    (n1 n2 c1 c2 : Nat) (r : Row) (hpart : decide (0 < c1) = decide (0 < c2)) :
    eraseAuditRow (applyTweetData t cat an au n1 c1 r) =
      eraseAuditRow (applyTweetData t cat an au n2 c2 r) := by
  simp only [eraseAuditRow, applyTweetData]
  rw [hpart, mkConvRef_erase t n1 n2]

lemma eraseAuditRow_applyTweetData_fresh (t : Tweet) (cat : TweetCategory) (an au : String)
    (n1 n2 c1 c2 : Nat) (hpart : decide (0 < c2) = decide (0 < c1)) :
    eraseAuditRow (applyTweetData t cat an au n2 c2 (freshRow t cat an au n1 c1)) =
      eraseAuditRow (freshRow t cat an au n1 c1) := by
  simp only [eraseAuditRow, applyTweetData, freshRow]
  rw [hpart, mkConvRef_erase t n2 n1]

lemma updateWhere_nomatch {p : Row → Bool} {f : Row → Row} {s : Store}
    (h : ∀ r ∈ s, ¬ p r = true) : updateWhere p f s = s := by
  induction s with
  | nil => rfl
  | cons x xs ih =>
      show (if p x then f x else x) :: updateWhere p f xs = x :: xs
      rw [if_neg (h x (by simp)), ih (fun r hr => h r (by simp [hr]))]

/-- C5 (amended): SaveTweet is idempotent up to audit timestamps only for
messages without a replied_to reference (with nonempty conversation id): for
those, upserting twice yields a store equal to upserting once after erasing
processed_at, last_updated and the conversation_ref's last_reply_at stamp; in
particular process_count, unread_replies and every other stored field agree.
For reply messages the property fails: every upsert of the same reply
re-increments the parent's unread_replies (see the counterexample). -/
theorem saveTweet_idempotent_nonreply (s : Store) (t : Tweet) (cat : TweetCategory)
    (an au : String) (t1 t2 : Nat) (h : replyHandlingApplies t = false) :
    eraseAuditStore (saveTweet (saveTweet s t cat an au t1) t cat an au t2) =
      eraseAuditStore (saveTweet s t cat an au t1) := by
  have h1 : saveTweet s t cat an au t1 = upsertTweetRow s t cat an au t1 (saveTweetCount s t) := by
    rw [saveTweet_eq, saveTweetBody_skip h]
  have h2 : saveTweet (saveTweet s t cat an au t1) t cat an au t2 =
      upsertTweetRow (upsertTweetRow s t cat an au t1 (saveTweetCount s t)) t cat an au t2
        (saveTweetCount (upsertTweetRow s t cat an au t1 (saveTweetCount s t)) t) := by
    rw [saveTweet_eq, saveTweetBody_skip h, h1]
  rw [h2, h1]
  have hpart : decide (0 < saveTweetCount (upsertTweetRow s t cat an au t1
      (saveTweetCount s t)) t) = decide (0 < saveTweetCount s t) :=
    decide_eq_decide.mpr (saveTweetCount_upsert_pos_iff s t cat an au t1)
  by_cases hs : (lookup s t.id).isSome
  · obtain ⟨r0, hr0⟩ := Option.isSome_iff_exists.mp hs
    have hupd1 : upsertTweetRow s t cat an au t1 (saveTweetCount s t) =
        updateWhere (idPred t.id) (applyTweetData t cat an au t1 (saveTweetCount s t)) s := by
      rw [upsertTweetRow, if_pos hs]
    have hlook1 : (lookup (upsertTweetRow s t cat an au t1 (saveTweetCount s t)) t.id).isSome := by
      rw [hupd1, lookup_updateWhere (idPred t.id) _
        (fun r hr => by simp [idPred] at hr; simp [applyTweetData, hr]), hr0]
      simp
    rw [hupd1] at hpart
    rw [upsertTweetRow, if_pos (hupd1 ▸ hlook1), hupd1]
    unfold eraseAuditStore updateWhere
    rw [List.map_map, List.map_map, List.map_map]
    apply List.map_congr_left
    intro y hy
    simp only [Function.comp]
    by_cases hpy : idPred t.id y = true
    · rw [if_pos hpy]
      have hpy2 : idPred t.id (applyTweetData t cat an au t1 (saveTweetCount s t) y) = true := by
        simp [idPred, applyTweetData]
      rw [if_pos hpy2]
      have hcomp : ∀ c2 : Nat, applyTweetData t cat an au t2 c2
          (applyTweetData t cat an au t1 (saveTweetCount s t) y) =
        applyTweetData t cat an au t2 c2 y := fun c2 => rfl
      rw [hcomp]
      exact eraseAuditRow_applyTweetData t cat an au t2 t1 _ _ y hpart
    · rw [if_neg hpy, if_neg hpy]
  · have hnone : lookup s t.id = none := by
      cases hl : lookup s t.id with
      | none => rfl
      | some v => exact absurd (by simp [hl]) hs
    have hupd1 : upsertTweetRow s t cat an au t1 (saveTweetCount s t) =
        s ++ [freshRow t cat an au t1 (saveTweetCount s t)] := by
      rw [upsertTweetRow, if_neg hs]
    have hlook1 : (lookup (upsertTweetRow s t cat an au t1 (saveTweetCount s t)) t.id).isSome := by
      rw [hupd1, lookup_append_right hnone]
      simp [lookup, freshRow]
    rw [hupd1] at hpart
    rw [upsertTweetRow, if_pos (hupd1 ▸ hlook1), hupd1]
    unfold updateWhere
    rw [List.map_append]
    have hsmap : List.map (fun r => if idPred t.id r then
        applyTweetData t cat an au t2
          (saveTweetCount (s ++ [freshRow t cat an au t1 (saveTweetCount s t)]) t) r
        else r) s = s := by
      have := updateWhere_nomatch (p := idPred t.id)
        (f := applyTweetData t cat an au t2
          (saveTweetCount (s ++ [freshRow t cat an au t1 (saveTweetCount s t)]) t))
        (s := s)
        (fun r hr => by
          have := lookup_eq_none_iff.mp hnone r hr
          simp [idPred, this])
      exact this
    rw [hsmap]
    have hfreshmatch : idPred t.id (freshRow t cat an au t1 (saveTweetCount s t)) = true := by
      simp [idPred, freshRow]
    unfold eraseAuditStore
    rw [List.map_append, List.map_append]
    simp only [List.map_cons, List.map_nil, hfreshmatch, if_true]
    rw [eraseAuditRow_applyTweetData_fresh t cat an au t1 t2 _ _ hpart]

/-- Witness for C5 (amended): double ingestion of a plain mention (no
replied_to reference) at different timestamps leaves the store equal up to
audit-timestamp erasure. -/
theorem saveTweet_idempotent_nonreply_witness :
    eraseAuditStore (saveTweet (saveTweet [] c4Tweet .mention "A" "a" 1) c4Tweet .mention "A" "a" 2) =
      eraseAuditStore (saveTweet [] c4Tweet .mention "A" "a" 1) :=
  saveTweet_idempotent_nonreply [] c4Tweet .mention "A" "a" 1 2 (by decide)

/-! RecallTweetsNeedingReply (memory package) and the dispatcher walk
(actions package).  The eligibility query, the grouping into conversation
threads, and the newest-to-oldest target walk. -/

/-- Ordering of rows by created_at, the ORDER BY / sort.Slice key. -/
def rowLE (a b : Row) : Prop := a.createdAt ≤ b.createdAt

instance : DecidableRel rowLE := fun a b => inferInstanceAs (Decidable (a.createdAt ≤ b.createdAt))

instance : IsTotal Row rowLE := ⟨fun a b => Nat.le_total a.createdAt b.createdAt⟩

instance : IsTrans Row rowLE := ⟨fun _ _ _ hab hbc => Nat.le_trans hab hbc⟩

/-- Sorting by created_at ascending (the SQL ORDER BY and the Go sort.Slice;
ties are broken deterministically here where Go leaves them unspecified). -/
def sortRows (l : List Row) : List Row := List.insertionSort rowLE l

/-- COALESCE(MAX(created_at), epoch) over the agent's own replies of a
conversation: the last_bot_reply join of the recall query. -/
def botReplyTimeCoalesced (s : Store) (userId c : String) : Nat :=
  ((s.filter (fun r => decide (r.authorId = userId) &&
      decide (r.category = TweetCategory.reply) &&
      decide (r.conversationId = c))).map (fun r => r.createdAt)).foldr max 0

/-- conversation_id IN (SELECT DISTINCT conversation_id FROM tweets WHERE
is_participating = TRUE). -/
def inParticipatingConv (s : Store) (c : String) : Bool :=
  s.any (fun r => decide (r.conversationId = c) && r.isParticipating)

/-- Case 3 of the recall query: active conversations with new activity. -/
def recallCaseC (s : Store) (userId : String) (r : Row) : Bool :=
  inParticipatingConv s r.conversationId && !r.repliedTo &&
    (decide (0 < r.unreadReplies) ||
      decide (botReplyTimeCoalesced s userId r.conversationId < r.createdAt))

/-- WHERE clause of the recall query: not authored by the agent, and a new
mention, a new conversation turn, or case 3. -/
def recallPred (s : Store) (userId : String) (r : Row) : Bool :=
  !(decide (r.authorId = userId)) &&
    ((decide (r.category = TweetCategory.mention) && !r.repliedTo) ||
     (decide (r.category = TweetCategory.conversation) && !r.repliedTo) ||
     recallCaseC s userId r)

/-- ConversationThread returned by the recall: the conversation id, the full
context (every stored row of the conversation, sorted by created_at), and the
newest last_reply_time among the query-selected rows of the conversation. -/
structure ConversationThread where
  conversationId : String
  tweets : List Row
  lastReplyTime : Nat
deriving DecidableEq

/-- Full context of a conversation: SELECT ... WHERE conversation_id = ?
ORDER BY created_at ASC. -/
def conversationRows (s : Store) (c : String) : List Row :=
  sortRows (s.filter (fun r => decide (r.conversationId = c)))

/-- Grouping of the query-selected rows into conversation threads, in first
occurrence order (the Go map plus its metadata update). -/
def groupThreads (s : Store) : List Row → List ConversationThread → List ConversationThread
  | [], acc => acc
  | r :: rest, acc =>
      if acc.any (fun th => decide (th.conversationId = r.conversationId)) then
        groupThreads s rest (acc.map (fun th =>
          if decide (th.conversationId = r.conversationId) &&
              decide (th.lastReplyTime < r.lastReplyTime) then
            { th with lastReplyTime := r.lastReplyTime }
          else th))
      else
        groupThreads s rest (acc ++
          [{ conversationId := r.conversationId,
             tweets := conversationRows s r.conversationId,
             lastReplyTime := r.lastReplyTime }])

/-- Final per-thread filter of the recall: keep the thread when some context
row still needs a reply. -/
def threadNeedsReply (userId : String) (th : ConversationThread) : Bool :=
  th.tweets.any (fun r =>
    !(decide (r.authorId = userId)) &&
      (decide (0 < r.unreadReplies) ||
       (decide (r.category = TweetCategory.mention) && !r.repliedTo) ||
       (decide (r.category = TweetCategory.conversation) && !r.repliedTo) ||
       (r.isParticipating && decide (th.lastReplyTime < r.createdAt))))

/-- RecallTweetsNeedingReply: run the selection query ordered by created_at,
group by conversation attaching the full sorted context, re-sort each
thread's tweets, and keep the threads that still need a reply. -/
def recallTweetsNeedingReply (s : Store) (userId : String) : List ConversationThread :=
  let needing := sortRows (s.filter (recallPred s userId))
  let threads := groupThreads s needing []
  (threads.map (fun th => { th with tweets := sortRows th.tweets })).filter
    (threadNeedsReply userId)

/-- Per-message test of the dispatcher's newest-to-oldest walk: not the
agent's own tweet, and a new mention, a new conversation tweet, or a positive
unread_replies counter. -/
def walkPred (botId : String) (r : Row) : Bool :=
  !(decide (r.authorId = botId)) &&
    ((decide (r.category = TweetCategory.mention) && !r.repliedTo) ||
     (decide (r.category = TweetCategory.conversation) && !r.repliedTo) ||
     decide (0 < r.unreadReplies))

/-- Last element of the list satisfying the test — the result of walking the
ascending-sorted list from its end. -/
def selectLast (p : Row → Bool) : List Row → Option Row
  | [] => none
  | r :: rs =>
      match selectLast p rs with
      | some x => some x
      | none => if p r then some r else none

/-- Target selection of handleSingleReply: sort the thread by created_at
ascending and walk from newest to oldest for the first qualifying tweet (none
when the bot id is unset, the code erroring out instead). -/
def selectTarget (botId : String) (th : ConversationThread) : Option Row :=
  if botId = "" then none
  else selectLast (walkPred botId) (sortRows th.tweets)

/-- One attempted PostReplyThread call of the dispatcher. -/
structure PostRec where
  text : String
  replyToId : String
  conversationId : String
deriving DecidableEq

/-- Observable outcome of handleSingleReply: the attempted post calls, the
resulting store, and the returned error if any. -/
structure HandleResult where
  postAttempts : List PostRec
  store : Store
  err : Option String
deriving DecidableEq

/-- handleSingleReply (thread version): sort, walk for the single target,
generate, post, then record the reply (SaveAgentReply, its failure only
logged) and flip the original's status (UpdateTweetAfterReply).  The language
model and the transport are oracles. -/
def handleSingleReply (botId : String) (th : ConversationThread) (s : Store)
    (gen : Except String String) (post : Except String String) (now : Nat) : HandleResult :=
  let sorted := sortRows th.tweets
  if botId = "" ∧ sorted ≠ [] then
    { postAttempts := [], store := s,
      err := some "TWITTER_USER_ID environment variable not set" }
  else
    match selectLast (walkPred botId) sorted with
    | none =>
        { postAttempts := [], store := s,
          err := some "no suitable tweet found to reply to in thread" }
    | some target =>
        if target.id = "" then
          { postAttempts := [], store := s, err := some "invalid tweet_id: empty string" }
        else
          match gen with
          | .error e =>
              { postAttempts := [], store := s,
                err := some ("failed to generate reply: " ++ e) }
          | .ok replyText =>
              match post with
              | .error e =>
                  { postAttempts := [⟨replyText, target.id, th.conversationId⟩], store := s,
                    err := some ("failed to post reply: " ++ e) }
              | .ok postedId =>
                  let s1 := (saveAgentReply s botId target.id postedId th.conversationId
                    replyText now).getD s
                  let s2 := updateTweetAfterReply s1 target.id postedId now
                  { postAttempts := [⟨replyText, target.id, th.conversationId⟩], store := s2,
                    err := none }

/-- Thread loop of ProcessTweetsNeedingReply: handle each recalled thread in
order, threading the store, collecting the attempted posts (per-thread errors
are logged and the loop continues; the rate limiter and timing are outside
the embedding). -/
def processCycleAux (botId : String) (gen post : ConversationThread → Except String String)
    (now : Nat) : List ConversationThread → Store → Store × List PostRec
  | [], s => (s, [])
  | th :: rest, s =>
      let hr := handleSingleReply botId th s (gen th) (post th) now
      let next := processCycleAux botId gen post now rest hr.store
      (next.1, hr.postAttempts ++ next.2)

/-- One dispatch cycle: recall, then the thread loop. -/
def processTweetsNeedingReply (s : Store) (userId botId : String)
    (gen post : ConversationThread → Except String String) (now : Nat) :
    Store × List PostRec :=
  processCycleAux botId gen post now (recallTweetsNeedingReply s userId) s

/-! Lemmas about sorting, the walk, and the recall grouping. -/

lemma mem_sortRows {r : Row} {l : List Row} : r ∈ sortRows l ↔ r ∈ l :=
  List.mem_insertionSort rowLE

lemma sorted_sortRows (l : List Row) : List.Sorted rowLE (sortRows l) :=
  List.sorted_insertionSort rowLE l

lemma selectLast_eq_none {p : Row → Bool} :
    ∀ {l : List Row}, selectLast p l = none ↔ ∀ e ∈ l, ¬ p e = true := by
  intro l
  induction l with
  | nil => simp [selectLast]
  | cons x xs ih =>
      rw [selectLast]
      cases hrec : selectLast p xs with
      | some y =>
          simp only [hrec]
          constructor
          · intro h; exact absurd h (by simp)
          · intro h
            have : ∀ e ∈ xs, ¬ p e = true := fun e he => h e (by simp [he])
            rw [ih.mpr this] at hrec
            exact absurd hrec (by simp)
      | none =>
          simp only [hrec]
          by_cases hx : p x = true
          · rw [if_pos hx]
            constructor
            · intro h; exact absurd h (by simp)
            · intro h; exact absurd hx (h x (by simp))
          · rw [if_neg hx]
            constructor
            · intro _ e he
              rcases List.mem_cons.mp he with rfl | he2
              · exact hx
              · exact ih.mp hrec e he2
            · intro _; rfl

lemma selectLast_some {p : Row → Bool} :
    ∀ {l : List Row} {r : Row}, selectLast p l = some r →
      p r = true ∧ ∃ l1 l2, l = l1 ++ r :: l2 ∧ ∀ e ∈ l2, ¬ p e = true := by
  intro l
  induction l with
  | nil => intro r h; exact absurd h (by simp [selectLast])
  | cons x xs ih =>
      intro r h
      rw [selectLast] at h
      cases hrec : selectLast p xs with
      | some y =>
          rw [hrec] at h
          obtain rfl : y = r := by simpa using h
          rcases ih hrec with ⟨hp, l1, l2, heq, hl2⟩
          exact ⟨hp, x :: l1, l2, by rw [heq]; rfl, hl2⟩
      | none =>
          rw [hrec] at h
          by_cases hx : p x = true
          · rw [if_pos hx] at h
            obtain rfl : x = r := by simpa using h
            exact ⟨hx, [], xs, rfl, selectLast_eq_none.mp hrec⟩
          · rw [if_neg hx] at h
            exact absurd h (by simp)

lemma selectLast_isSome_of_mem {p : Row → Bool} {l : List Row} {r : Row}
    (hr : r ∈ l) (hp : p r = true) : (selectLast p l).isSome := by
  cases h : selectLast p l with
  | some x => simp
  | none => exact absurd hp (selectLast_eq_none.mp h r hr)

lemma selectLast_mem {p : Row → Bool} {l : List Row} {r : Row}
    (h : selectLast p l = some r) : r ∈ l := by
  rcases selectLast_some h with ⟨_, l1, l2, heq, _⟩
  rw [heq]
  simp

/-- Maximality of the walk's pick: every list element satisfying the test is
no newer than the selected one, the list being sorted ascending. -/
lemma selectLast_max {p : Row → Bool} {l : List Row} {t : Row}
    (hsorted : List.Sorted rowLE l) (h : selectLast p l = some t) :
    ∀ e ∈ l, p e = true → e.createdAt ≤ t.createdAt := by
  intro e he hpe
  rcases selectLast_some h with ⟨hpt, l1, l2, heq, hl2⟩
  subst heq
  rcases List.mem_append.mp he with h1 | h1
  · have := (List.pairwise_append.mp hsorted).2.2 e h1 t (by simp)
    exact this
  · rcases List.mem_cons.mp h1 with rfl | h2
    · exact Nat.le_refl _
    · exact absurd hpe (hl2 e h2)

lemma conversationRows_subset {s : Store} {c : String} {r : Row}
    (h : r ∈ conversationRows s c) : r ∈ s := by
  rw [conversationRows, mem_sortRows] at h
  exact (List.mem_filter.mp h).1

lemma groupThreads_tweets_mem (s : Store) :
    ∀ (l : List Row) (acc : List ConversationThread),
      (∀ a ∈ acc, ∀ r ∈ a.tweets, r ∈ s) →
      ∀ th ∈ groupThreads s l acc, ∀ r ∈ th.tweets, r ∈ s := by
  intro l
  induction l with
  | nil => intro acc hacc th hth; exact hacc th hth
  | cons rr rest ih =>
      intro acc hacc th hth
      rw [groupThreads] at hth
      by_cases hany : (acc.any fun th2 => decide (th2.conversationId = rr.conversationId)) = true
      · rw [if_pos hany] at hth
        refine ih _ ?_ th hth
        intro a ha r hr
        rcases List.mem_map.mp ha with ⟨a0, ha0, hae⟩
        have htweets : a.tweets = a0.tweets := by
          rw [← hae]
          by_cases hcnd : (decide (a0.conversationId = rr.conversationId) &&
              decide (a0.lastReplyTime < rr.lastReplyTime)) = true
          · rw [if_pos hcnd]
          · rw [if_neg hcnd]
        exact hacc a0 ha0 r (htweets ▸ hr)
      · rw [if_neg hany] at hth
        refine ih _ ?_ th hth
        intro a ha r hr
        rcases List.mem_append.mp ha with ha2 | ha2
        · exact hacc a ha2 r hr
        · rw [List.mem_singleton.mp ha2] at hr
          exact conversationRows_subset hr

lemma recall_thread_tweets_mem {s : Store} {userId : String} {th : ConversationThread}
    (hth : th ∈ recallTweetsNeedingReply s userId) : ∀ r ∈ th.tweets, r ∈ s := by
  intro r hr
  rw [recallTweetsNeedingReply] at hth
  have hth2 := List.mem_filter.mp hth |>.1
  rcases List.mem_map.mp hth2 with ⟨th0, hth0, hthe⟩
  have hsub : ∀ r2 ∈ th0.tweets, r2 ∈ s :=
    groupThreads_tweets_mem s _ [] (by simp) th0 hth0
  have : th.tweets = sortRows th0.tweets := by rw [← hthe]
  rw [this, mem_sortRows] at hr
  exact hsub r hr

/-! Claim C7: self-exclusion. -/

/-- C7: for every message authored by the authenticated account, the recall
query's WHERE clause rejects it, and the dispatcher walk never selects a
tweet authored by the account as the dispatch target — regardless of its
category, replied_to, or unread_replies values. -/
theorem self_exclusion (s : Store) (acct : String) (r : Row)
    (th : ConversationThread) (t : Row) :
    (r.authorId = acct → recallPred s acct r = false) ∧
      (selectTarget acct th = some t → t.authorId ≠ acct) := by
  constructor
  · intro h
    unfold recallPred
    simp [h]
  · intro hsel
    unfold selectTarget at hsel
    by_cases hb : acct = ""
    · rw [if_pos hb] at hsel
      exact absurd hsel (by simp)
    · rw [if_neg hb] at hsel
      have hp := (selectLast_some hsel).1
      unfold walkPred at hp
      intro heq
      simp [heq] at hp

/-- Concrete rows of the self-exclusion witness. -/
def c7BotRow : Row := freshRow ⟨"11", "mine", "c7", "B", none⟩ .mention "B" "b" 1 0

/-- Third-party row that the walk does pick in the witness thread. -/
def c7UserRow : Row := freshRow ⟨"10", "hi", "c7", "U", none⟩ .mention "A" "a" 1 0

/-- Witness for C7 at concrete inputs: the agent-authored row fails the
recall predicate, and the target the walk picks in a concrete thread is not
agent-authored. -/
theorem self_exclusion_witness :
    recallPred [c7BotRow, c7UserRow] "B" c7BotRow = false ∧ c7UserRow.authorId ≠ "B" :=
  ⟨(self_exclusion [c7BotRow, c7UserRow] "B" c7BotRow
      ⟨"c7", [c7UserRow], 0⟩ c7UserRow).1 rfl,
    (self_exclusion [c7BotRow, c7UserRow] "B" c7BotRow
      ⟨"c7", [c7UserRow], 0⟩ c7UserRow).2 (by decide)⟩

/-! Claim C9: a thread with no valid target. -/

/-- Thread of the C9 counterexample: its only tweet is the agent's own. -/
def c9Row : Row := freshRow ⟨"30", "mine", "c3", "B", none⟩ .reply "B" "b" 1 1

/-- The thread holding only the agent's own tweet. -/
def c9Th : ConversationThread := ⟨"c3", [c9Row], 0⟩

/-- C9 counterexample: when the walk finds no valid target, handleSingleReply
posts nothing and leaves the store unchanged, but it does return an error
("no suitable tweet found to reply to in thread") — it does not skip the
thread without error as the claim states. -/
theorem no_target_returns_error_cex :
    (handleSingleReply "B" c9Th [] (.ok "text") (.ok "99") 5).err =
        some "no suitable tweet found to reply to in thread" ∧
      (handleSingleReply "B" c9Th [] (.ok "text") (.ok "99") 5).postAttempts = [] ∧
      (handleSingleReply "B" c9Th [] (.ok "text") (.ok "99") 5).store = [] := by
  exact ⟨by decide, by decide, by decide⟩

/-- C9 (amended): for every thread in which the walk finds no valid target,
handleSingleReply posts nothing, leaves the store unchanged, and returns the
error "no suitable tweet found to reply to in thread"; the dispatch loop
treats the error as non-fatal, so processing the thread is equivalent to
skipping it — the rest of the cycle proceeds on the unchanged store. -/
theorem no_target_skips_thread_with_error (botId : String) (th : ConversationThread)
    (s : Store) (genF postF : ConversationThread → Except String String) (now : Nat)
    (hb : botId ≠ "") (hnone : selectTarget botId th = none) :
    handleSingleReply botId th s (genF th) (postF th) now =
      { postAttempts := [], store := s,
        err := some "no suitable tweet found to reply to in thread" } ∧
    ∀ rest : List ConversationThread,
      processCycleAux botId genF postF now (th :: rest) s =
        processCycleAux botId genF postF now rest s := by
  rw [selectTarget, if_neg hb] at hnone
  have h1 : handleSingleReply botId th s (genF th) (postF th) now =
      { postAttempts := [], store := s,
        err := some "no suitable tweet found to reply to in thread" } := by
    unfold handleSingleReply
    rw [if_neg (by intro hand; exact hb hand.1)]
    rw [hnone]
  refine ⟨h1, fun rest => ?_⟩
  rw [processCycleAux, h1]
  rfl

/-- Witness for C9 (amended) at the concrete bot-only thread. -/
theorem no_target_skips_thread_with_error_witness :
    handleSingleReply "B" c9Th [] ((fun _ => Except.ok "t") c9Th)
        ((fun _ => Except.ok "99") c9Th) 5 =
      { postAttempts := [], store := [],
        err := some "no suitable tweet found to reply to in thread" } ∧
      processCycleAux "B" (fun _ => Except.ok "t") (fun _ => Except.ok "99") 5 [c9Th] [] =
        processCycleAux "B" (fun _ => Except.ok "t") (fun _ => Except.ok "99") 5 [] [] :=
  ⟨(no_target_skips_thread_with_error "B" c9Th [] (fun _ => .ok "t") (fun _ => .ok "99") 5
      (by decide) (by decide)).1,
    (no_target_skips_thread_with_error "B" c9Th [] (fun _ => .ok "t") (fun _ => .ok "99") 5
      (by decide) (by decide)).2 []⟩

/-! Claim C3: most-recent-only per conversation. -/

lemma handleSingleReply_attempts (botId : String) (th : ConversationThread) (s : Store)
    (gen post : Except String String) (now : Nat) :
    (handleSingleReply botId th s gen post now).postAttempts = [] ∨
    ∃ pr : PostRec, (handleSingleReply botId th s gen post now).postAttempts = [pr] ∧
      pr.conversationId = th.conversationId := by
  simp only [handleSingleReply]
  split
  · exact Or.inl rfl
  · split
    · exact Or.inl rfl
    · split
      · exact Or.inl rfl
      · split
        · exact Or.inl rfl
        · split
          · exact Or.inr ⟨_, rfl, rfl⟩
          · exact Or.inr ⟨_, rfl, rfl⟩

lemma processCycleAux_conv_mem (botId : String)
    (genF postF : ConversationThread → Except String String) (now : Nat) :
    ∀ (threads : List ConversationThread) (s : Store) (pr : PostRec),
      pr ∈ (processCycleAux botId genF postF now threads s).2 →
      ∃ th ∈ threads, pr.conversationId = th.conversationId := by
  intro threads
  induction threads with
  | nil =>
      intro s pr h
      exact absurd h (by simp [processCycleAux])
  | cons th rest ih =>
      intro s pr h
      rw [processCycleAux] at h
      rcases List.mem_append.mp h with h2 | h2
      · rcases handleSingleReply_attempts botId th s (genF th) (postF th) now with h0 | ⟨pr2, he, hc⟩
        · rw [h0] at h2
          exact absurd h2 (by simp)
        · rw [he] at h2
          rw [List.mem_singleton.mp h2]
          exact ⟨th, by simp, hc⟩
      · rcases ih _ pr h2 with ⟨th2, hth2, hc⟩
        exact ⟨th2, by simp [hth2], hc⟩

lemma processCycleAux_count (botId : String)
    (genF postF : ConversationThread → Except String String) (now : Nat) (c : String) :
    ∀ (threads : List ConversationThread) (s : Store),
      ((threads.map (fun th => th.conversationId)).Nodup) →
      ((processCycleAux botId genF postF now threads s).2.filter
        (fun p => decide (p.conversationId = c))).length ≤ 1 := by
  intro threads
  induction threads with
  | nil =>
      intro s _
      simp [processCycleAux]
  | cons th rest ih =>
      intro s hnd
      rw [List.map_cons, List.nodup_cons] at hnd
      rw [processCycleAux, List.filter_append, List.length_append]
      by_cases hc : th.conversationId = c
      · have hrest0 : (((processCycleAux botId genF postF now rest
            (handleSingleReply botId th s (genF th) (postF th) now).store).2).filter
            (fun p => decide (p.conversationId = c))).length = 0 := by
          rw [List.length_eq_zero, List.filter_eq_nil_iff]
          intro pr hpr hprc
          rcases processCycleAux_conv_mem botId genF postF now rest _ pr hpr with ⟨th2, hth2, hceq⟩
          have hthis : pr.conversationId = c := by simpa using hprc
          apply hnd.1
          have hthc : th.conversationId = th2.conversationId := by
            rw [hc, ← hthis]
            exact hceq
          rw [hthc]
          exact List.mem_map.mpr ⟨th2, hth2, rfl⟩
        rw [hrest0]
        have hhead : ((handleSingleReply botId th s (genF th) (postF th) now).postAttempts.filter
            (fun p => decide (p.conversationId = c))).length ≤ 1 := by
          rcases handleSingleReply_attempts botId th s (genF th) (postF th) now with h0 | ⟨pr2, he, _⟩
          · rw [h0]; simp
          · rw [he]
            exact Nat.le_trans (List.length_filter_le _ _) (by simp)
        omega
      · have hhead0 : ((handleSingleReply botId th s (genF th) (postF th) now).postAttempts.filter
            (fun p => decide (p.conversationId = c))).length = 0 := by
          rw [List.length_eq_zero, List.filter_eq_nil_iff]
          intro pr hpr hprc
          rcases handleSingleReply_attempts botId th s (genF th) (postF th) now with h0 | ⟨pr2, he, hceq⟩
          · rw [h0] at hpr
            exact absurd hpr (by simp)
          · rw [he] at hpr
            rw [List.mem_singleton.mp hpr] at hprc
            have : pr2.conversationId = c := by simpa using hprc
            exact hc (hceq ▸ this)
        rw [hhead0]
        have := ih (handleSingleReply botId th s (genF th) (postF th) now).store hnd.2
        omega

lemma groupThreads_convIds_nodup (s : Store) :
    ∀ (l : List Row) (acc : List ConversationThread),
      ((acc.map (fun th => th.conversationId)).Nodup) →
      (((groupThreads s l acc).map (fun th => th.conversationId)).Nodup) := by
  intro l
  induction l with
  | nil => intro acc h; exact h
  | cons rr rest ih =>
      intro acc hacc
      rw [groupThreads]
      by_cases hany : (acc.any fun th2 => decide (th2.conversationId = rr.conversationId)) = true
      · rw [if_pos hany]
        refine ih _ ?_
        have hconv : (acc.map (fun th =>
            if decide (th.conversationId = rr.conversationId) &&
                decide (th.lastReplyTime < rr.lastReplyTime) then
              { th with lastReplyTime := rr.lastReplyTime }
            else th)).map (fun th => th.conversationId) =
            acc.map (fun th => th.conversationId) := by
          rw [List.map_map]
          apply List.map_congr_left
          intro a _
          simp only [Function.comp]
          by_cases hcnd : (decide (a.conversationId = rr.conversationId) &&
              decide (a.lastReplyTime < rr.lastReplyTime)) = true
          · rw [if_pos hcnd]
          · rw [if_neg hcnd]
        rw [hconv]
        exact hacc
      · rw [if_neg hany]
        refine ih _ ?_
        rw [List.map_append]
        rw [List.nodup_append]
        refine ⟨hacc, by simp, ?_⟩
        intro a ha hb
        have hb2 : a = rr.conversationId := by simpa using hb
        rcases List.mem_map.mp ha with ⟨th2, hth2, hthe⟩
        have hall : ∀ th2 ∈ acc, ¬ (decide (th2.conversationId = rr.conversationId) = true) := by
          simpa [List.any_eq_true] using hany
        exact hall th2 hth2 (by
          simp only [decide_eq_true_eq]
          exact hthe.trans hb2)

lemma recall_convIds_nodup (s : Store) (userId : String) :
    (((recallTweetsNeedingReply s userId).map (fun th => th.conversationId)).Nodup) := by
  rw [recallTweetsNeedingReply]
  have h0 := groupThreads_convIds_nodup s (sortRows (s.filter (recallPred s userId))) [] (by simp)
  have hmapped : ((groupThreads s (sortRows (s.filter (recallPred s userId))) []).map
      (fun th => { th with tweets := sortRows th.tweets })).map (fun th => th.conversationId) =
      (groupThreads s (sortRows (s.filter (recallPred s userId))) []).map
        (fun th => th.conversationId) := by
    rw [List.map_map]
    apply List.map_congr_left
    intro a _
    rfl
  refine List.Nodup.sublist ?_ (hmapped ▸ h0)
  exact List.Sublist.map _ (List.filter_sublist _)

/-- C3: for every recalled conversation thread holding at least two distinct
eligible messages (eligible = satisfying the dispatcher walk's predicate:
not agent-authored, and unanswered mention, unanswered conversation turn, or
positive unread counter), the walk yields exactly one target; the target is
eligible and chronologically latest among the eligible (no eligible message
is newer); and one dispatch cycle attempts at most one post into that
conversation. -/
theorem recall_walk_single_latest_target (s : Store) (userId botId : String)
    (genF postF : ConversationThread → Except String String) (now : Nat)
    (th : ConversationThread) (x y : Row)
    (hb : botId ≠ "")
    (hth : th ∈ recallTweetsNeedingReply s userId)
    (hx : x ∈ th.tweets) (hy : y ∈ th.tweets) (hxy : x ≠ y)
    (hex : walkPred botId x = true) (hey : walkPred botId y = true) :
    ∃ t, selectTarget botId th = some t ∧ walkPred botId t = true ∧
      (∀ e ∈ th.tweets, walkPred botId e = true → e.createdAt ≤ t.createdAt) ∧
      ((processTweetsNeedingReply s userId botId genF postF now).2.filter
          (fun p => decide (p.conversationId = th.conversationId))).length ≤ 1 := by
  have hxs : x ∈ sortRows th.tweets := mem_sortRows.mpr hx
  have hsome : (selectLast (walkPred botId) (sortRows th.tweets)).isSome :=
    selectLast_isSome_of_mem hxs hex
  obtain ⟨t, ht⟩ := Option.isSome_iff_exists.mp hsome
  refine ⟨t, ?_, (selectLast_some ht).1, ?_, ?_⟩
  · rw [selectTarget, if_neg hb]
    exact ht
  · intro e he hpe
    exact selectLast_max (sorted_sortRows th.tweets) ht e (mem_sortRows.mpr he) hpe
  · rw [processTweetsNeedingReply]
    exact processCycleAux_count botId genF postF now th.conversationId
      (recallTweetsNeedingReply s userId) s (recall_convIds_nodup s userId)

/-- First eligible row of the C3 witness conversation (created at 1). -/
def c3RowA : Row := freshRow ⟨"100", "hello", "cw", "U1", none⟩ .mention "A" "a" 1 0

/-- Second eligible row of the C3 witness conversation (created at 2). -/
def c3RowB : Row := freshRow ⟨"101", "again", "cw", "U1", none⟩ .mention "A" "a" 2 0

/-- The thread the recall returns for the witness store. -/
def c3Thread : ConversationThread := ⟨"cw", [c3RowA, c3RowB], 0⟩

/-- Witness for C3 at a concrete two-mention conversation: the recall returns
the thread, both messages are eligible, and the theorem's conclusion holds. -/
theorem recall_walk_single_latest_target_witness :
    ∃ t, selectTarget "B" c3Thread = some t ∧ walkPred "B" t = true ∧
      (∀ e ∈ c3Thread.tweets, walkPred "B" e = true → e.createdAt ≤ t.createdAt) ∧
      ((processTweetsNeedingReply [c3RowA, c3RowB] "B" "B"
          (fun _ => Except.ok "r") (fun _ => Except.ok "900") 9).2.filter
          (fun p => decide (p.conversationId = c3Thread.conversationId))).length ≤ 1 :=
  recall_walk_single_latest_target [c3RowA, c3RowB] "B" "B"
    (fun _ => Except.ok "r") (fun _ => Except.ok "900") 9 c3Thread c3RowA c3RowB
    (by decide) (by decide) (by decide) (by decide) (by decide) (by decide) (by decide)

/-! Claim C1: no duplicate replies. -/

/-- Invariant carried after answering a message: some row holds the id, and
every row with that id has replied_to TRUE. -/
def idRepliedInv (origId : String) (s : Store) : Prop :=
  (∃ r ∈ s, r.id = origId) ∧ ∀ r ∈ s, r.id = origId → r.repliedTo = true

lemma exists_id_updateWhere {p : Row → Bool} {f : Row → Row} {s : Store} {id : String}
    (hid : ∀ r, p r = true → (f r).id = r.id)
    (h : ∃ r ∈ s, r.id = id) : ∃ r ∈ updateWhere p f s, r.id = id := by
  obtain ⟨r, hr, hrid⟩ := h
  refine ⟨if p r then f r else r, mem_updateWhere.mpr ⟨r, hr, rfl⟩, ?_⟩
  by_cases hp : p r = true
  · rw [if_pos hp, hid r hp]
    exact hrid
  · rw [if_neg hp]
    exact hrid

lemma saveTweetBody_mem {s : Store} {t : Tweet} {now : Nat} :
    ∀ r2 ∈ saveTweetBody s t now,
      ∃ y ∈ s, r2.id = y.id ∧ r2.repliedTo = y.repliedTo := by
  intro r2 hr2
  unfold saveTweetBody at hr2
  by_cases hcv : t.conversationId = ""
  · rw [if_pos hcv] at hr2
    exact ⟨r2, hr2, rfl, rfl⟩
  · rw [if_neg hcv] at hr2
    cases hrefs : t.referencedTweets with
    | none =>
        rw [hrefs] at hr2
        exact ⟨r2, hr2, rfl, rfl⟩
    | some refs =>
        rw [hrefs] at hr2
        cases hfirst : firstRepliedTo refs with
        | none =>
            simp only [hfirst] at hr2
            exact ⟨r2, hr2, rfl, rfl⟩
        | some pid =>
            simp only [hfirst] at hr2
            rcases mem_updateWhere.mp hr2 with ⟨y1, hy1, hre⟩
            rcases mem_updateWhere.mp hy1 with ⟨y0, hy0, hy1e⟩
            refine ⟨y0, hy0, ?_, ?_⟩
            · have h21 : r2.id = y1.id := by
                rw [hre]
                by_cases h1 : sibPred t.conversationId pid y1
                · rw [if_pos h1]; rfl
                · rw [if_neg h1]
              have h10 : y1.id = y0.id := by
                rw [hy1e]
                by_cases h0 : idPred pid y0
                · rw [if_pos h0]; rfl
                · rw [if_neg h0]
              exact h21.trans h10
            · have h21 : r2.repliedTo = y1.repliedTo := by
                rw [hre]
                by_cases h1 : sibPred t.conversationId pid y1
                · rw [if_pos h1]; rfl
                · rw [if_neg h1]
              have h10 : y1.repliedTo = y0.repliedTo := by
                rw [hy1e]
                by_cases h0 : idPred pid y0
                · rw [if_pos h0]; rfl
                · rw [if_neg h0]
              exact h21.trans h10

lemma saveTweetBody_exists_id {s : Store} {t : Tweet} {now : Nat} {id : String}
    (h : ∃ r ∈ s, r.id = id) : ∃ r2 ∈ saveTweetBody s t now, r2.id = id := by
  unfold saveTweetBody
  by_cases hcv : t.conversationId = ""
  · rw [if_pos hcv]
    exact h
  · rw [if_neg hcv]
    cases hrefs : t.referencedTweets with
    | none => exact h
    | some refs =>
        cases hfirst : firstRepliedTo refs with
        | none => simp only [hfirst]; exact h
        | some pid =>
            simp only [hfirst]
            exact exists_id_updateWhere (fun r _ => rfl)
              (exists_id_updateWhere (fun r _ => rfl) h)

lemma idRepliedInv_saveTweet {origId : String} {s : Store} (t : Tweet)
    (cat : TweetCategory) (an au : String) (now : Nat) (h : idRepliedInv origId s) :
    idRepliedInv origId (saveTweet s t cat an au now) := by
  obtain ⟨hex, hall⟩ := h
  have hbody_ex : ∃ r2 ∈ saveTweetBody s t now, r2.id = origId :=
    saveTweetBody_exists_id hex
  have hbody_all : ∀ r2 ∈ saveTweetBody s t now, r2.id = origId → r2.repliedTo = true := by
    intro r2 hr2 hid2
    rcases saveTweetBody_mem r2 hr2 with ⟨y, hy, hidy, hrepy⟩
    exact hrepy.trans (hall y hy (hidy ▸ hid2))
  rw [saveTweet_eq]
  unfold upsertTweetRow
  by_cases hs : (lookup (saveTweetBody s t now) t.id).isSome
  · rw [if_pos hs]
    constructor
    · exact exists_id_updateWhere (fun r hp => by
        simp only [idPred, decide_eq_true_eq] at hp
        simp [applyTweetData, hp]) hbody_ex
    · intro r hr hid
      rcases mem_updateWhere.mp hr with ⟨z, hz, hre⟩
      by_cases hp : idPred t.id z = true
      · rw [if_pos hp] at hre
        have hz2 : z.id = t.id := by simpa [idPred] using hp
        have hrid : r.id = t.id := by rw [hre]; rfl
        have : z.id = origId := by rw [hz2, ← hrid]; exact hid
        have hzr := hbody_all z hz this
        rw [hre]
        exact hzr
      · rw [if_neg hp] at hre
        rw [hre]
        exact hbody_all z hz (hre ▸ hid)
  · rw [if_neg hs]
    have hnone : lookup (saveTweetBody s t now) t.id = none := by
      cases hl : lookup (saveTweetBody s t now) t.id with
      | none => rfl
      | some v => exact absurd (by simp [hl]) hs
    constructor
    · obtain ⟨r2, hr2, hid2⟩ := hbody_ex
      exact ⟨r2, List.mem_append.mpr (Or.inl hr2), hid2⟩
    · intro r hr hid
      rcases List.mem_append.mp hr with hmem | hmem
      · exact hbody_all r hmem hid
      · rw [List.mem_singleton.mp hmem] at hid
        obtain ⟨r2, hr2, hid2⟩ := hbody_ex
        have : r2.id ≠ t.id := lookup_eq_none_iff.mp hnone r2 hr2
        exact absurd (hid2.trans hid.symm) this

lemma idRepliedInv_agentReplyUpdates {origId : String} {s : Store}
    (botId o2 r2id c2 txt2 : String) (n2 : Nat) (h : idRepliedInv origId s)
    (hnew : lookup s r2id = none) :
    idRepliedInv origId
      (updateWhere (convPred c2) (particUpd n2)
        (updateWhere (idPred o2) (answeredUpd r2id n2)
          (s ++ [agentReplyRow botId o2 r2id c2 txt2 n2]))) := by
  obtain ⟨hex, hall⟩ := h
  constructor
  · refine exists_id_updateWhere (fun r _ => rfl)
      (exists_id_updateWhere (fun r _ => rfl) ?_)
    obtain ⟨r, hr, hrid⟩ := hex
    exact ⟨r, List.mem_append.mpr (Or.inl hr), hrid⟩
  · intro r hr hid
    rcases mem_updateWhere.mp hr with ⟨z1, hz1, hre⟩
    rcases mem_updateWhere.mp hz1 with ⟨z0, hz0, hz1e⟩
    have hrid : r.id = z1.id := by
      rw [hre]
      by_cases hp : convPred c2 z1 = true
      · rw [if_pos hp]; rfl
      · rw [if_neg hp]
    have hrrep : r.repliedTo = z1.repliedTo := by
      rw [hre]
      by_cases hp : convPred c2 z1 = true
      · rw [if_pos hp]; rfl
      · rw [if_neg hp]
    rw [hrrep]
    by_cases hp0 : idPred o2 z0 = true
    · rw [hz1e, if_pos hp0]
      rfl
    · rw [hz1e, if_neg hp0] at hrid hrrep ⊢
      rcases List.mem_append.mp hz0 with hmem | hmem
      · exact hall z0 hmem (hrid ▸ hid)
      · exfalso
        rw [List.mem_singleton.mp hmem] at hrid
        have : r2id = origId := by rw [← hid, hrid]; rfl
        obtain ⟨rw0, hrw0, hrw0id⟩ := hex
        exact lookup_eq_none_iff.mp hnew rw0 hrw0 (hrw0id.trans this.symm)

lemma saveAgentReply_sets_replied {s : Store} {botId origId replyId convId replyText : String}
    {now : Nat} {s1 : Store}
    (hex : ∃ r ∈ s, r.id = origId)
    (hsave : saveAgentReply s botId origId replyId convId replyText now = some s1) :
    idRepliedInv origId s1 := by
  unfold saveAgentReply at hsave
  by_cases hg : (lookup s replyId).isSome
  · rw [if_pos hg] at hsave
    exact absurd hsave (by simp)
  · rw [if_neg hg] at hsave
    have hs1 := Option.some_inj.mp hsave
    constructor
    · rw [← hs1]
      refine exists_id_updateWhere (fun r _ => rfl)
        (exists_id_updateWhere (fun r _ => rfl) ?_)
      obtain ⟨r, hr, hrid⟩ := hex
      exact ⟨r, List.mem_append.mpr (Or.inl hr), hrid⟩
    · intro r hr hid
      rw [← hs1] at hr
      rcases mem_updateWhere.mp hr with ⟨z1, hz1, hre⟩
      rcases mem_updateWhere.mp hz1 with ⟨z0, hz0, hz1e⟩
      have hrid : r.id = z1.id := by
        rw [hre]
        by_cases hp : convPred convId z1 = true
        · rw [if_pos hp]; rfl
        · rw [if_neg hp]
      have hrrep : r.repliedTo = z1.repliedTo := by
        rw [hre]
        by_cases hp : convPred convId z1 = true
        · rw [if_pos hp]; rfl
        · rw [if_neg hp]
      rw [hrrep]
      by_cases hp0 : idPred origId z0 = true
      · rw [hz1e, if_pos hp0]
        rfl
      · exfalso
        rw [hz1e, if_neg hp0] at hrid
        have : z0.id = origId := hrid ▸ hid
        simp [idPred, this] at hp0

lemma idRepliedInv_applyOp {origId : String} (botId : String) (op : StoreOp)
    {s : Store} (h : idRepliedInv origId s) : idRepliedInv origId (applyOp botId s op) := by
  cases op with
  | ingest t cat an au now => exact idRepliedInv_saveTweet t cat an au now h
  | agentReply o2 r2id c2 txt2 n2 =>
      show idRepliedInv origId ((saveAgentReply s botId o2 r2id c2 txt2 n2).getD s)
      unfold saveAgentReply
      by_cases hg : (lookup s r2id).isSome
      · rw [if_pos hg]
        exact h
      · rw [if_neg hg]
        have hnone : lookup s r2id = none := by
          cases hl : lookup s r2id with
          | none => rfl
          | some v => exact absurd (by simp [hl]) hg
        exact idRepliedInv_agentReplyUpdates botId o2 r2id c2 txt2 n2 h hnone
  | afterReply tid rid n2 =>
      obtain ⟨hex, hall⟩ := h
      constructor
      · exact exists_id_updateWhere (fun r _ => rfl) hex
      · intro r hr hid
        rcases mem_updateWhere.mp hr with ⟨z, hz, hre⟩
        by_cases hp : idPred tid z = true
        · rw [hre, if_pos hp]
          rfl
        · rw [hre, if_neg hp] at hid ⊢
          exact hall z hz hid

lemma idRepliedInv_applyOps {origId : String} (botId : String) (ops : List StoreOp) :
    ∀ {s : Store}, idRepliedInv origId s → idRepliedInv origId (applyOps botId s ops) := by
  induction ops with
  | nil => intro s h; exact h
  | cons op rest ih =>
      intro s h
      exact ih (idRepliedInv_applyOp botId op h)

/-- C1 (amended): after SaveAgentReply(origId, replyId, …) succeeds, and after
any further sequence of store operations, origId is never selected by
RecallTweetsNeedingReply's WHERE clause (its replied_to is TRUE and stays
TRUE); and provided origId's unread_replies counter is zero at recall time,
the dispatcher's newest-to-oldest walk never yields origId as the message to
answer.  The counter proviso is necessary: SaveAgentReply does not reset
unread_replies, and the walk's unread-replies branch ignores replied_to, so
an answered message with a positive counter can be picked again. -/
theorem saveAgentReply_then_recall_excludes_orig
    (s : Store) (botId origId replyId convId replyText : String) (now : Nat)
    (ops : List StoreOp) (s1 : Store)
    (hex : ∃ r ∈ s, r.id = origId)
    (hsave : saveAgentReply s botId origId replyId convId replyText now = some s1)
    (hunread : ∀ r ∈ applyOps botId s1 ops, r.id = origId → r.unreadReplies = 0) :
    (∀ r ∈ applyOps botId s1 ops, r.id = origId →
        recallPred (applyOps botId s1 ops) botId r = false) ∧
    (∀ th ∈ recallTweetsNeedingReply (applyOps botId s1 ops) botId,
      ∀ t, selectTarget botId th = some t → t.id ≠ origId) := by
  have hinv : idRepliedInv origId (applyOps botId s1 ops) :=
    idRepliedInv_applyOps botId ops (saveAgentReply_sets_replied hex hsave)
  constructor
  · intro r hr hid
    have hrep := hinv.2 r hr hid
    unfold recallPred recallCaseC
    simp [hrep]
  · intro th hth t hsel hid
    unfold selectTarget at hsel
    by_cases hb : botId = ""
    · rw [if_pos hb] at hsel
      exact absurd hsel (by simp)
    · rw [if_neg hb] at hsel
      have hp := (selectLast_some hsel).1
      have htmem : t ∈ th.tweets := mem_sortRows.mp (selectLast_mem hsel)
      have hts : t ∈ applyOps botId s1 ops := recall_thread_tweets_mem hth t htmem
      have hrep := hinv.2 t hts hid
      have hz := hunread t hts hid
      unfold walkPred at hp
      simp [hrep, hz] at hp

/-- Base store of the C1 witness: the one mention the agent answers. -/
def c1wS0 : Store := [freshRow ⟨"101", "x", "cw1", "U", none⟩ .mention "A" "a" 1 0]

/-- Store after the successful SaveAgentReply of the witness. -/
def c1wS1 : Store := (saveAgentReply c1wS0 "B" "101" "200" "cw1" "r" 2).getD []

/-- Witness for C1 (amended) at the concrete one-message store with no
further operations. -/
theorem saveAgentReply_then_recall_excludes_orig_witness :
    (∀ r ∈ applyOps "B" c1wS1 [], r.id = "101" →
        recallPred (applyOps "B" c1wS1 []) "B" r = false) ∧
    (∀ th ∈ recallTweetsNeedingReply (applyOps "B" c1wS1 []) "B",
      ∀ t, selectTarget "B" th = some t → t.id ≠ "101") :=
  saveAgentReply_then_recall_excludes_orig c1wS0 "B" "101" "200" "cw1" "r" 2 [] c1wS1
    (by decide) (by decide) (by decide)

/-- Operation trace of the C1 counterexample (see the doc comment of the
counterexample theorem). -/
def c1S0 : Store :=
  saveTweet (saveTweet [] ⟨"100", "hello", "c1", "U", none⟩ .mention "A" "a" 1)
    ⟨"101", "more", "c1", "U", none⟩ .mention "A" "a" 2

/-- The first SaveAgentReply of the counterexample (answering tweet 101). -/
def c1S1opt : Option Store := saveAgentReply c1S0 "B" "101" "200" "c1" "reply one" 3

/-- Store after answering tweet 101, then ingesting a reply (102) to it —
which increments 101's unread_replies. -/
def c1S2 : Store :=
  saveTweet (c1S1opt.getD []) ⟨"102", "back", "c1", "U", some [⟨"replied_to", "101"⟩]⟩
    .conversation "A" "a" 4

/-- The second SaveAgentReply of the counterexample (answering tweet 102). -/
def c1S3opt : Option Store := saveAgentReply c1S2 "B" "102" "201" "c1" "reply two" 5

/-- C1 counterexample: both SaveAgentReply calls succeed (in particular the
one answering 101), yet a subsequent RecallTweetsNeedingReply followed by the
dispatcher's walk yields 101 as the message to answer: tweet 100 (an
unanswered mention) keeps the thread eligible, and the walk's unread-replies
branch picks 101 — replied_to TRUE but unread_replies 1, because
SaveAgentReply never resets the counter. -/
theorem recall_walk_yields_replied_orig_cex :
    c1S1opt.isSome = true ∧ c1S3opt.isSome = true ∧
      ((recallTweetsNeedingReply (c1S3opt.getD []) "B").any (fun th =>
        match selectTarget "B" th with
        | some t => decide (t.id = "101")
        | none => false)) = true := by
  exact ⟨by decide, by decide, by decide⟩

end AgentGo
